import Mathlib

/-!
Interaction handlers of `server.mjs`.

A shallow embedding of the four interaction routes of `src/server.mjs`

* `GET  /interaction/:uid`          (lines 99-148)   `getDetails`
* `POST /interaction/:uid/login`    (lines 150-170)  `submitLogin`
* `POST /interaction/:uid/confirm`  (lines 172-223)  `submitConsent`
* `GET  /interaction/:uid/abort`    (lines 225-235)  `abort`

The handlers are effectful: they call the provider (`interactionDetails`,
`interactionFinished`, `Client.find`, `Grant.find`, `new Grant`, `save`), the account
store (`Account.findByLogin`), the response (`res.render`) and `next`.  They are embedded
as state-passing functions over a `World` that supplies the answers of the collaborators.
Every collaborator call, every render and every `next(err)` is recorded in a trace, so
that "calls X exactly once" and "never calls X" are statements about the trace. The
assignments of lines 102-104 go into the object the engine returned; they are recorded in a
list of writes, and the engine sees them as far as it shares that object with its store.

JavaScript strings are `String`; `undefined` is `none`; a thrown error is `Except.error`.
Console output (`console.log`, `console.warn`) and the `cache-control` header set by
`setNoCache` are not part of the model.
-/

set_option autoImplicit false

namespace OidcDemo

/-! ## Data model -/

/-- Errors that can be thrown while a handler runs. `assertion` is the `AssertionError`
of `assert.equal` (the spec's `ProtocolMismatch`), `typeError` is the `TypeError` of
reading a property of `undefined`, `engine` is any error thrown by a collaborator
(for instance `SessionNotFound`, the spec's `UnknownOrExpiredInteraction`). -/
inductive Err where
  | assertion (actual expected : String)
  | typeError (msg : String)
  | engine (msg : String)
  deriving DecidableEq

/-- The object `prompt.details` of a consent prompt: each field may be absent. -/
structure PromptDetails where
  missingOIDCScope : Option (List String)
  missingOIDCClaims : Option (List String)
  missingResourceScopes : Option (List (String × List String))
  deriving DecidableEq

/-- The object `details.prompt`. -/
structure Prompt where
  name : String
  reasons : List String
  details : PromptDetails
  deriving DecidableEq

/-- The object `details.params`: the two fields the handlers read, and the others. -/
structure Params where
  client_id : String
  prompt : Option String
  rest : List (String × String)
  deriving DecidableEq

/-- The object `details.session`. -/
structure Session where
  accountId : String
  deriving DecidableEq

/-- The value returned by `provider.interactionDetails(req, res)`. -/
structure Details where
  uid : String
  prompt : Prompt
  params : Params
  session : Option Session
  grantId : Option String
  deriving DecidableEq

/-- The part of the request the handlers read: `req.params.uid` and `req.body.login`. -/
structure Req where
  uid : String
  login : Option String
  deriving DecidableEq

/-- A client as returned by `provider.Client.find`. -/
structure Client where
  clientId : String
  redirectUris : List String
  deriving DecidableEq

/-- An account as returned by `Account.findByLogin`. -/
structure Account where
  accountId : String
  deriving DecidableEq

/-- The object `consent` built at lines 208-212: `grantId` is set or not. -/
structure Consent where
  grantId : Option String
  deriving DecidableEq

/-- The `result` argument of `provider.interactionFinished`. -/
inductive Result where
  | login (accountId : String)
  | consent (c : Consent)
  | error (error error_description : String)
  deriving DecidableEq

/-- A grant object: identifier, owner, client and the three accumulated collections.
The collections are duplicate-free lists standing for the sets of the data model. -/
structure Grant where
  jti : String
  accountId : String
  clientId : String
  oidcScopes : List String
  oidcClaims : List String
  resourceScopes : List (String × List String)
  deriving DecidableEq

/-- The argument of a call to `debug` (line 75): the session, the params or the prompt. -/
inductive DebugArg where
  | session (s : Session)
  | params (p : Params)
  | prompt (p : Prompt)
  deriving DecidableEq

/-- The `locals` object passed to `res.render` (lines 115-126 and 129-140). -/
structure Locals where
  client : Option Client
  uid : String
  details : PromptDetails
  params : Params
  title : String
  session : Option String
  dbgParams : String
  dbgPrompt : String
  deriving DecidableEq

/-- One observable step of a handler: a collaborator call (with the value it returned,
where the handler uses it), a render, or `next(err)`. -/
inductive Event where
  | interactionDetails (req : Req)
  | detailsLoaded (d : Details)
  | clientFind (clientId : String)
  | findByLogin (login : Option String)
  | grantFind (grantId : String)
  | grantNew (accountId clientId : String)
  | addOIDCScope (scope : String)
  | addOIDCClaims (claims : List String)
  | addResourceScope (indicator scope : String)
  | grantSave (g : Grant)
  | grantSaved (grantId : String)
  | interactionFinished (req : Req) (result : Result) (mergeWithLastSubmission : Bool)
  | render (view : String) (locals : Locals)
  | next (err : Err)
  deriving DecidableEq

/-- The persisted grants, keyed by grant identifier. -/
abbrev GrantStore := List (String × Grant)

/-- The collaborators of the handlers. `ε` is the engine's own state (interactions,
sessions, cookies), of which the handlers know nothing. Each engine operation returns
its answer or the error it throws, and the next engine state.

* `interactionDetails`, `clientFind`, `interactionFinished`: the provider's methods.
* `findByLogin`: `Account.findByLogin` of `./support/account.mjs`, which is not among the
  sources; `undefined` is `none`.
* `grantFindError`, `grantSaveError`: whether the adapter throws in `Grant.find`, `save`.
* `genGrantId`: the identifier a new grant gets.
* `renderError`: whether `res.render` throws for a view and its locals.
* `assigned`: what the engine's state becomes when the handler assigns into the object
  `interactionDetails` returned for a request (lines 102-104), given the object after the
  assignments: nothing changes if the engine hands out copies, the stored record changes
  if it hands out the record it keeps.
* `debug`: the function `debug` of lines 75-82, from the argument and the module-level
  set `keys` to the string it returns and the extended set; its string is built by
  `util.inspect` and `querystring.stringify`, which are not modelled. -/
structure World (ε : Type) where
  interactionDetails : Req → ε → Except Err Details × ε
  clientFind : String → ε → Except Err (Option Client) × ε
  findByLogin : Option String → ε → Except Err (Option Account) × ε
  interactionFinished : Req → Result → Bool → ε → Except Err Unit × ε
  grantFindError : String → ε → Option Err
  grantSaveError : Grant → ε → Option Err
  genGrantId : ε → String × ε
  renderError : String → Locals → Option Err
  assigned : Req → Details → ε → ε
  debug : DebugArg → List String → String × List String

/-- The state a handler runs in: the engine's state, the persisted grants, the
module-level set `keys` of line 74, the trace of steps so far, and the objects the
handlers have assigned into (each as it is after the assignments of lines 102-104). -/
structure St (ε : Type) where
  eng : ε
  grants : GrantStore
  keys : List String
  trace : List Event
  writes : List Details

/-- A handler computation: it ends normally or throws, and leaves a state either way. -/
def H (ε α : Type) : Type := St ε → Except Err α × St ε

namespace H

variable {ε α β : Type}

/-- Normal completion. -/
def ret (a : α) : H ε α := fun st => (.ok a, st)

/-- A thrown error. -/
def raise (e : Err) : H ε α := fun st => (.error e, st)

/-- Sequencing: a throw in the first part skips the second. -/
def andThen (m : H ε α) (f : α → H ε β) : H ε β := fun st =>
  match (m st).1 with
  | .ok a => f a (m st).2
  | .error e => (.error e, (m st).2)

/-- The statement `try { m } catch (err) { h(err) }`. -/
def handle (m : H ε α) (h : Err → H ε α) : H ε α := fun st =>
  match (m st).1 with
  | .ok a => (.ok a, (m st).2)
  | .error e => h e (m st).2

/-- Record one step in the trace. -/
def emit (e : Event) : H ε Unit := fun st => (.ok (), { st with trace := st.trace ++ [e] })

/-- Run an engine operation on the engine's state. -/
def engine (op : ε → Except Err α × ε) : H ε α := fun st =>
  ((op st.eng).1, { st with eng := (op st.eng).2 })

end H

instance (ε : Type) : Monad (H ε) where
  pure := H.ret
  bind := H.andThen

instance (ε : Type) : MonadExcept Err (H ε) where
  throw := H.raise
  tryCatch := H.handle

/-! ## JavaScript helpers -/

/-- Truthiness of an optional string: `undefined` and `''` are falsy. -/
def truthyStr : Option String → Bool
  | none => false
  | some s => s != ""

/-- Split a sequence of characters at every single space, as `s.split(' ')` does. -/
def splitChars : List Char → List (List Char)
  | [] => [[]]
  | c :: cs =>
    if c = ' ' then [] :: splitChars cs
    else
      match splitChars cs with
      | [] => [[c]]
      | w :: ws => (c :: w) :: ws

/-- Concatenate sequences of characters with one space between neighbours, as
`xs.join(' ')` does. -/
def joinChars : List (List Char) → List Char
  | [] => []
  | [w] => w
  | w :: w2 :: ws => w ++ ' ' :: joinChars (w2 :: ws)

/-- The method call `s.split(' ')`. -/
def jsSplit (s : String) : List String := (splitChars s.data).map String.mk

/-- The method call `xs.join(' ')`. -/
def jsJoin (xs : List String) : String := String.mk (joinChars (xs.map String.data))

/-! ## The grant object and the grant store -/

/-- Modelled from the spec: `addOIDCScope` of the provider's `Grant` class, which is not
part of this repository. Section 4.3: "union into `oidcScopes`"; the argument is one
string of scopes separated by single spaces. -/
def Grant.addOIDCScope (g : Grant) (scope : String) : Grant :=
  { g with oidcScopes := jsSplit scope ∪ g.oidcScopes }

/-- Modelled from the spec: `addOIDCClaims` of the provider's `Grant` class, which is
not part of this repository. Section 4.3: "union into `oidcClaims`". -/
def Grant.addOIDCClaims (g : Grant) (claims : List String) : Grant :=
  { g with oidcClaims := claims ∪ g.oidcClaims }

/-- Union of `scopes` into the entry of `indicator`, creating the entry if absent. -/
def addToIndicator : List (String × List String) → String → List String →
    List (String × List String)
  | [], indicator, scopes => [(indicator, scopes ∪ [])]
  | (k, v) :: m, indicator, scopes =>
    if k = indicator then (k, scopes ∪ v) :: m
    else (k, v) :: addToIndicator m indicator scopes

/-- Modelled from the spec: `addResourceScope` of the provider's `Grant` class, which is
not part of this repository. Section 4.3: "union into `resourceScopes[indicator]`,
creating the entry if absent"; the second argument is one string of scopes separated by
single spaces. -/
def Grant.addResourceScope (g : Grant) (indicator scope : String) : Grant :=
  { g with resourceScopes := addToIndicator g.resourceScopes indicator (jsSplit scope) }

/-- The scopes a resource-scope map holds for `indicator` (none if there is no entry). -/
def scopesOf (m : List (String × List String)) (indicator : String) : List String :=
  (m.lookup indicator).getD []

/-- Modelled from the spec: the write of `save`, which belongs to the provider and is
not part of this repository. Section 4.3: "persists (create or update) ...; repeated
saves of the same logical grant overwrite rather than duplicate". -/
def upsert (store : GrantStore) (g : Grant) : GrantStore :=
  if store.any (fun e => e.1 == g.jti) then
    store.map (fun e => if e.1 = g.jti then (e.1, g) else e)
  else store ++ [(g.jti, g)]

/-- Modelled from the spec: the grant built by `new provider.Grant({ accountId, clientId })`
(section 6), before anything is added to it; the provider's code is not part of this
repository. -/
def freshGrant (jti accountId clientId : String) : Grant :=
  { jti := jti, accountId := accountId, clientId := clientId,
    oidcScopes := [], oidcClaims := [], resourceScopes := [] }

/-! ## Collaborator calls -/

section Calls

variable {ε : Type}

/-- The call `await provider.interactionDetails(req, res)`. -/
def callInteractionDetails (w : World ε) (req : Req) : H ε Details := do
  H.emit (.interactionDetails req)
  let d ← H.engine (w.interactionDetails req)
  H.emit (.detailsLoaded d)
  pure d

/-- The call `await provider.Client.find(clientId)`. -/
def callClientFind (w : World ε) (clientId : String) : H ε (Option Client) := do
  H.emit (.clientFind clientId)
  H.engine (w.clientFind clientId)

/-- The call `await Account.findByLogin(login)`. -/
def callFindByLogin (w : World ε) (login : Option String) : H ε (Option Account) := do
  H.emit (.findByLogin login)
  H.engine (w.findByLogin login)

/-- The call `await provider.interactionFinished(req, res, result, opts)`. -/
def callInteractionFinished (w : World ε) (req : Req) (result : Result)
    (mergeWithLastSubmission : Bool) : H ε Unit := do
  H.emit (.interactionFinished req result mergeWithLastSubmission)
  H.engine (w.interactionFinished req result mergeWithLastSubmission)

/-- The call `next(err)`. -/
def callNext (err : Err) : H ε Unit := H.emit (.next err)

/-- Modelled from the spec: the call `await provider.Grant.find(grantId)`, a read of the
grant store by identifier (section 6, `Grant.find(grantId) -> Grant`); the provider's
code is not part of this repository. It yields `undefined` for an unknown identifier. -/
def callGrantFind (w : World ε) (grantId : String) : H ε (Option Grant) := do
  H.emit (.grantFind grantId)
  let st ← (fun st => (.ok st, st) : H ε (St ε))
  match w.grantFindError grantId st.eng with
  | some e => throw e
  | none => pure (st.grants.lookup grantId)

/-- Modelled from the spec: the construction `new provider.Grant({ accountId, clientId })`
(section 6); the provider's code is not part of this repository. The new grant has a
fresh identifier and empty collections, and is not yet persisted. -/
def callGrantNew (w : World ε) (accountId clientId : String) : H ε Grant := do
  H.emit (.grantNew accountId clientId)
  let jti ← H.engine (fun eng => (.ok (w.genGrantId eng).1, (w.genGrantId eng).2))
  pure (freshGrant jti accountId clientId)

/-- The value of `grant` when a method is called on it: reading a method of `undefined`
throws a `TypeError`. -/
def definedGrant (grant : Option Grant) (method : String) : H ε Grant :=
  match grant with
  | some g => pure g
  | none => throw (Err.typeError ("Cannot read properties of undefined: " ++ method))

/-- The call `grant.addOIDCScope(scope)`. -/
def callAddOIDCScope (grant : Option Grant) (scope : String) : H ε (Option Grant) := do
  let g ← definedGrant grant "addOIDCScope"
  H.emit (.addOIDCScope scope)
  pure (some (g.addOIDCScope scope))

/-- The call `grant.addOIDCClaims(claims)`. -/
def callAddOIDCClaims (grant : Option Grant) (claims : List String) :
    H ε (Option Grant) := do
  let g ← definedGrant grant "addOIDCClaims"
  H.emit (.addOIDCClaims claims)
  pure (some (g.addOIDCClaims claims))

/-- The call `grant.addResourceScope(indicator, scope)`. -/
def callAddResourceScope (grant : Option Grant) (indicator scope : String) :
    H ε (Option Grant) := do
  let g ← definedGrant grant "addResourceScope"
  H.emit (.addResourceScope indicator scope)
  pure (some (g.addResourceScope indicator scope))

/-- Modelled from the spec: the call `await grant.save()` (section 4.3: "persists (create
or update) and returns a stable identifier"); the provider's code is not part of this
repository. A failing save writes nothing. -/
def callGrantSave (w : World ε) (grant : Option Grant) : H ε String := do
  let g ← definedGrant grant "save"
  H.emit (.grantSave g)
  let st ← (fun st => (.ok st, st) : H ε (St ε))
  match w.grantSaveError g st.eng with
  | some e => throw e
  | none =>
    (fun st => (.ok (), { st with grants := upsert st.grants g }) : H ε Unit)
    H.emit (.grantSaved g.jti)
    pure g.jti

/-- The call `debug(obj)` (lines 75-82): it reads and extends the module-level set `keys`
and returns a string. The string is built by `util.inspect` and `querystring.stringify`,
which the world supplies. -/
def callDebug (w : World ε) (a : DebugArg) : H ε String := fun st =>
  (.ok (w.debug a st.keys).1, { st with keys := (w.debug a st.keys).2 })

/-- The call `res.render(view, locals)`, which may throw. -/
def callRender (w : World ε) (view : String) (locals : Locals) : H ε Unit := do
  H.emit (.render view locals)
  match w.renderError view locals with
  | some e => throw e
  | none => pure ()

end Calls

/-! ## The handlers -/

section Handlers

variable {ε : Type}

/-- Lines 101-105: the rewrite of a `select_account` request into `login`. -/
def rewriteSelectAccount (details : Details) : Details :=
  if details.params.prompt = some "select_account" then
    { details with
      params := { details.params with prompt := some "login" }
      prompt := { details.prompt with name := "login", reasons := [] } }
  else details

/-- The expression `session ? debug(session) : undefined`. -/
def debugSession (w : World ε) (session : Option Session) : H ε (Option String) :=
  match session with
  | some s => do
    let r ← callDebug w (.session s)
    pure (some r)
  | none => pure none

/-- The `locals` object of lines 115-126 and 129-140, fields evaluated in order. -/
def buildLocals (w : World ε) (client : Option Client) (details : Details)
    (title : String) : H ε Locals := do
  let session ← debugSession w details.session
  let dbgParams ← callDebug w (.params details.params)
  let dbgPrompt ← callDebug w (.prompt details.prompt)
  pure { client := client, uid := details.uid, details := details.prompt.details,
         params := details.params, title := title, session := session,
         dbgParams := dbgParams, dbgPrompt := dbgPrompt }

/-- Lines 112-147: the `try { switch (prompt.name) ... } catch (err) { next(err) }`. -/
def renderPrompt (w : World ε) (client : Option Client) (details : Details) : H ε Unit :=
  tryCatch
    (if details.prompt.name = "login" then do
      let locals ← buildLocals w client details "Sign-in"
      callRender w "login" locals
    else if details.prompt.name = "consent" then do
      let locals ← buildLocals w client details "Authorize"
      callRender w "interaction" locals
    else pure ())
    (fun err => callNext err)

/-- Lines 101-105 as a statement: when the condition of line 101 holds, the three
assignments are made in the object the engine returned. The write is recorded, the engine
sees it through `assigned`, and the handler goes on with the object as it now is. -/
def rewriteInPlace (w : World ε) (req : Req) (details : Details) : H ε Details :=
  if details.params.prompt = some "select_account" then
    fun st =>
      (.ok (rewriteSelectAccount details),
        { st with eng := w.assigned req (rewriteSelectAccount details) st.eng
                  writes := st.writes ++ [rewriteSelectAccount details] })
  else pure details

/-- `GET /interaction/:uid` (lines 99-148). The two awaited calls stand before the `try`,
so an error of theirs leaves the handler as a rejection (`Except.error`). -/
def getDetails (w : World ε) (req : Req) : H ε Unit := do
  let details ← callInteractionDetails w req
  let details ← rewriteInPlace w req details
  let client ← callClientFind w details.params.client_id
  renderPrompt w client details

/-- Lines 152-166: the body of the `try` of the login handler. -/
def submitLoginBody (w : World ε) (req : Req) : H ε Unit := do
  let details ← callInteractionDetails w req
  let name := details.prompt.name
  if name ≠ "login" then throw (Err.assertion name "login")
  let account ← callFindByLogin w req.login
  let accountId ←
    match account with
    | some a => pure a.accountId
    | none => throw (Err.typeError "Cannot read properties of undefined: accountId")
  let result := Result.login accountId
  callInteractionFinished w req result false

/-- `POST /interaction/:uid/login` (lines 150-170). -/
def submitLogin (w : World ε) (req : Req) : H ε Unit :=
  tryCatch (submitLoginBody w req) (fun err => callNext err)

/-- Lines 200-204: the loop over `Object.entries(details.missingResourceScopes)`. -/
def addResourceScopes : List (String × List String) → Option Grant → H ε (Option Grant)
  | [], grant => pure grant
  | (indicator, scopes) :: entries, grant => do
    let grant ← callAddResourceScope grant indicator (jsJoin scopes)
    addResourceScopes entries grant

/-- Lines 194-204: the three guarded additions to the grant. -/
def mergeMissing (details : PromptDetails) (grant : Option Grant) : H ε (Option Grant) := do
  let grant ←
    match details.missingOIDCScope with
    | some scopes => callAddOIDCScope grant (jsJoin scopes)
    | none => pure grant
  let grant ←
    match details.missingOIDCClaims with
    | some claims => callAddOIDCClaims grant claims
    | none => pure grant
  match details.missingResourceScopes with
  | some entries => addResourceScopes entries grant
  | none => pure grant

/-- Lines 174-219: the body of the `try` of the confirm handler. -/
def submitConsentBody (w : World ε) (req : Req) : H ε Unit := do
  let interactionDetails ← callInteractionDetails w req
  -- line 177: the destructuring reads `session.accountId` before the assertion
  let name := interactionDetails.prompt.name
  let details := interactionDetails.prompt.details
  let params := interactionDetails.params
  let accountId ←
    match interactionDetails.session with
    | some s => pure s.accountId
    | none => throw (Err.typeError "Cannot destructure property accountId of undefined")
  if name ≠ "consent" then throw (Err.assertion name "consent")
  let grant ←
    if truthyStr interactionDetails.grantId then
      callGrantFind w (interactionDetails.grantId.getD "")
    else do
      let g ← callGrantNew w accountId params.client_id
      pure (some g)
  let grant ← mergeMissing details grant
  let grantId ← callGrantSave w grant
  let consent : Consent :=
    if !truthyStr interactionDetails.grantId then { grantId := some grantId }
    else { grantId := none }
  let result := Result.consent consent
  callInteractionFinished w req result true

/-- `POST /interaction/:uid/confirm` (lines 172-223). -/
def submitConsent (w : World ε) (req : Req) : H ε Unit :=
  tryCatch (submitConsentBody w req) (fun err => callNext err)

/-- The constant `result` of lines 227-230. -/
def abortResult : Result := Result.error "access_denied" "End-User aborted interaction"

/-- `GET /interaction/:uid/abort` (lines 225-235). -/
def abort (w : World ε) (req : Req) : H ε Unit :=
  tryCatch (callInteractionFinished w req abortResult false) (fun err => callNext err)

/-- The state before a request: given engine state and grants, empty trace, no write. -/
def St.start (eng : ε) (grants : GrantStore) (keys : List String) : St ε :=
  { eng := eng, grants := grants, keys := keys, trace := [], writes := [] }

/-- Serve requests one after the other; a request starts in the state the previous one
left, whatever its outcome. -/
def serve : List (H ε Unit) → St ε → St ε
  | [], st => st
  | h :: hs, st => serve hs (h st).2

end Handlers

/-! ## The merge step as a function on grants -/

/-- The grant the loop of lines 200-204 leaves, for a grant that is defined. -/
def applyResourceScopes : List (String × List String) → Grant → Grant
  | [], g => g
  | (indicator, scopes) :: entries, g =>
    applyResourceScopes entries (g.addResourceScope indicator (jsJoin scopes))

/-- The grant lines 194-204 leave, for a grant that is defined (see
`mergeMissing_defined`). -/
def applyMissing (details : PromptDetails) (g : Grant) : Grant :=
  let g1 :=
    match details.missingOIDCScope with
    | some scopes => g.addOIDCScope (jsJoin scopes)
    | none => g
  let g2 :=
    match details.missingOIDCClaims with
    | some claims => g1.addOIDCClaims claims
    | none => g1
  match details.missingResourceScopes with
  | some entries => applyResourceScopes entries g2
  | none => g2

/-- The `add*` calls of lines 194-204, in order. -/
def mergeSteps (details : PromptDetails) : List Event :=
  (match details.missingOIDCScope with
    | some scopes => [Event.addOIDCScope (jsJoin scopes)]
    | none => []) ++
  (match details.missingOIDCClaims with
    | some claims => [Event.addOIDCClaims claims]
    | none => []) ++
  (match details.missingResourceScopes with
    | some entries => entries.map (fun e => Event.addResourceScope e.1 (jsJoin e.2))
    | none => [])

/-- The `locals` object of lines 115-126 and 129-140 as a value, together with the set
`keys` its three `debug` calls leave (see `buildLocals_run`). -/
def localsOf {ε : Type} (w : World ε) (client : Option Client) (details : Details)
    (title : String) (keys : List String) : Locals × List String :=
  let s : Option String × List String :=
    match details.session with
    | some s => (some (w.debug (.session s) keys).1, (w.debug (.session s) keys).2)
    | none => (none, keys)
  let p := w.debug (.params details.params) s.2
  let q := w.debug (.prompt details.prompt) p.2
  ({ client := client, uid := details.uid, details := details.prompt.details,
     params := details.params, title := title, session := s.1,
     dbgParams := p.1, dbgPrompt := q.1 }, q.2)

/-! ## Deltas and grants as sets -/

/-- A list of scopes that survives `join(' ')` followed by `split(' ')`: it is not empty
and none of its strings holds a space. -/
def cleanScopes (scopes : List String) : Bool :=
  !scopes.isEmpty && scopes.all (fun s => !s.data.contains ' ')

/-- A delta whose scope lists are all clean. -/
def cleanDelta (D : PromptDetails) : Bool :=
  (match D.missingOIDCScope with
    | some scopes => cleanScopes scopes
    | none => true) &&
  (match D.missingResourceScopes with
    | some entries => entries.all (fun e => cleanScopes e.2)
    | none => true)

/-- The OIDC scopes of a delta. -/
def deltaScopes (D : PromptDetails) : List String := D.missingOIDCScope.getD []

/-- The OIDC claims of a delta. -/
def deltaClaims (D : PromptDetails) : List String := D.missingOIDCClaims.getD []

/-- The entries of the resource-scope object of a delta. -/
def deltaEntries (D : PromptDetails) : List (String × List String) :=
  D.missingResourceScopes.getD []

/-- The resource scopes of a delta for `indicator`. -/
def deltaResource (D : PromptDetails) (indicator : String) : List String :=
  ((deltaEntries D).filter (fun e => e.1 == indicator)).flatMap (fun e => e.2)

/-- A grant whose collections are true sets: no scope, claim or indicator twice. -/
def Grant.NoDup (g : Grant) : Prop :=
  g.oidcScopes.Nodup ∧ g.oidcClaims.Nodup ∧ (g.resourceScopes.map Prod.fst).Nodup ∧
    ∀ e ∈ g.resourceScopes, e.2.Nodup

instance (g : Grant) : Decidable g.NoDup := by
  unfold Grant.NoDup
  infer_instance

/-- The delta is already contained in the grant, component by component. -/
def SubDelta (D : PromptDetails) (g : Grant) : Prop :=
  deltaScopes D ⊆ g.oidcScopes ∧ deltaClaims D ⊆ g.oidcClaims ∧
    ∀ e ∈ deltaEntries D, e.2 ⊆ scopesOf g.resourceScopes e.1

/-- Two grants hold the same sets of scopes, claims and resource scopes. -/
def SameSets (g h : Grant) : Prop :=
  (∀ s, s ∈ g.oidcScopes ↔ s ∈ h.oidcScopes) ∧ (∀ s, s ∈ g.oidcClaims ↔ s ∈ h.oidcClaims) ∧
    ∀ i s, s ∈ scopesOf g.resourceScopes i ↔ s ∈ scopesOf h.resourceScopes i

/-! ## Observations on traces -/

/-- A call of `provider.interactionFinished` (the finalize handoff). -/
def isFinished : Event → Bool
  | .interactionFinished _ _ _ => true
  | _ => false

/-- A step that touches a grant: `Grant.find`, `new Grant`, an `add*` call or `save`. -/
def isGrantStep : Event → Bool
  | .grantFind _ => true
  | .grantNew _ _ => true
  | .addOIDCScope _ => true
  | .addOIDCClaims _ => true
  | .addResourceScope _ _ => true
  | .grantSave _ => true
  | .grantSaved _ => true
  | _ => false

/-- A call of `res.render`. -/
def isRender : Event → Bool
  | .render _ _ => true
  | _ => false

/-- A call of `next(err)`. -/
def isNext : Event → Bool
  | .next _ => true
  | _ => false

/-! ## Concrete worlds -/

/-- The registered client of lines 37-43. -/
def demoClient : Client :=
  { clientId := "aaa-client",
    redirectUris :=
      ["https://connectify-staging-xckvrr.zitadel.cloud/ui/login/login/externalidp/callback"] }

/-- A world without engine state: `interactionDetails` yields `d`, `interactionFinished`
answers `finish`, the account store maps the login `alice` to account `acc-1`, and
everything else succeeds. -/
def fixedWorld (d : Details) (finish : Except Err Unit) : World Unit where
  interactionDetails := fun _ e => (.ok d, e)
  clientFind := fun id e => (.ok (if id = "aaa-client" then some demoClient else none), e)
  findByLogin := fun l e => (.ok (if l = some "alice" then some ⟨"acc-1"⟩ else none), e)
  interactionFinished := fun _ _ _ e => (finish, e)
  grantFindError := fun _ _ => none
  grantSaveError := fun _ _ => none
  genGrantId := fun e => ("g-1", e)
  renderError := fun _ _ => none
  assigned := fun _ _ e => e
  debug := fun _ k => ("", k)

/-- A world whose engine remembers the finalized uids and rejects a second finalize of
the same uid with `SessionNotFound`. -/
def guardedWorld : World (List String) where
  interactionDetails := fun req fin =>
    (if req.uid ∈ fin then .error (Err.engine "SessionNotFound")
     else .ok { uid := req.uid, prompt := ⟨"login", ["no_session"], ⟨none, none, none⟩⟩,
                params := ⟨"aaa-client", none, []⟩, session := none, grantId := none }, fin)
  clientFind := fun _ fin => (.ok (some demoClient), fin)
  findByLogin := fun l fin => (.ok (l.map fun s => ⟨s⟩), fin)
  interactionFinished := fun req _ _ fin =>
    if req.uid ∈ fin then (.error (Err.engine "SessionNotFound"), fin) else (.ok (), req.uid :: fin)
  grantFindError := fun _ _ => none
  grantSaveError := fun _ _ => none
  genGrantId := fun fin => ("g-1", fin)
  renderError := fun _ _ => none
  assigned := fun _ _ e => e
  debug := fun _ k => ("", k)

/-- Replace the record stored for `uid`. -/
def storeRecord (store : List (String × Details)) (uid : String) (d : Details) :
    List (String × Details) :=
  store.map (fun e => if e.1 = uid then (e.1, d) else e)

/-- An engine that keeps its interactions in memory, as the provider does when the
configuration names no adapter (lines 36-62 name none): `interactionDetails` hands out the
record stored for the uid of the request, and an assignment into that object changes the
stored record. The provider is not part of this repository; that the object it returns
shares `params` and `prompt` with the stored record is taken from its in-memory adapter.
`Client.find` answers `client`; nothing else fails. -/
def memoryWorld (client : Option Client) : World (List (String × Details)) where
  interactionDetails := fun req store =>
    (match store.lookup req.uid with
      | some d => .ok d
      | none => .error (Err.engine "SessionNotFound"), store)
  clientFind := fun _ store => (.ok client, store)
  findByLogin := fun l store => (.ok (l.map fun s => ⟨s⟩), store)
  interactionFinished := fun _ _ _ store => (.ok (), store)
  grantFindError := fun _ _ => none
  grantSaveError := fun _ _ => none
  genGrantId := fun store => ("g-1", store)
  renderError := fun _ _ => none
  assigned := fun req d store => storeRecord store req.uid d
  debug := fun _ k => ("", k)

/-- A stored grant of account `acc-1` for the demo client. -/
def demoGrant : Grant :=
  { jti := "g-0", accountId := "acc-1", clientId := "aaa-client",
    oidcScopes := ["openid"], oidcClaims := [], resourceScopes := [("urn:api", ["read"])] }

/-- A delta with scopes, claims and resource scopes. -/
def demoDelta : PromptDetails :=
  { missingOIDCScope := some ["openid", "email"], missingOIDCClaims := some ["first_name"],
    missingResourceScopes := some [("urn:api", ["read", "write"])] }

/-- A second delta. -/
def otherDelta : PromptDetails :=
  { missingOIDCScope := some ["profile"], missingOIDCClaims := none,
    missingResourceScopes := some [("urn:other", ["list"])] }

/-- A delta whose only scope string holds a space. -/
def spacedDelta : PromptDetails :=
  { missingOIDCScope := some ["api read"], missingOIDCClaims := none,
    missingResourceScopes := none }

/-- A delta whose scope list is present and empty. -/
def emptyListDelta : PromptDetails :=
  { missingOIDCScope := some [], missingOIDCClaims := none, missingResourceScopes := none }

/-- An empty `prompt.details`. -/
def noDetails : PromptDetails := ⟨none, none, none⟩

/-- Interaction at the login prompt, no session yet. -/
def atLogin : Details :=
  { uid := "u-1", prompt := ⟨"login", ["no_session"], noDetails⟩,
    params := ⟨"aaa-client", none, [("scope", "openid")]⟩, session := none, grantId := none }

/-- Interaction at the consent prompt of a signed-in user, no grant yet. -/
def atConsent : Details :=
  { uid := "u-1",
    prompt := ⟨"consent", ["op_scopes_missing"], ⟨some ["openid", "email"], none, none⟩⟩,
    params := ⟨"aaa-client", none, [("scope", "openid email")]⟩,
    session := some ⟨"acc-1"⟩, grantId := none }

/-- Interaction at the consent prompt of a signed-in user whose session already has the
grant `g-0`. -/
def atConsentAgain : Details :=
  { uid := "u-1",
    prompt := ⟨"consent", ["op_scopes_missing"], ⟨some ["email"], none, none⟩⟩,
    params := ⟨"aaa-client", none, [("scope", "openid email")]⟩,
    session := some ⟨"acc-1"⟩, grantId := some "g-0" }

/-- Interaction requested with `prompt=select_account`. -/
def atSelectAccount : Details :=
  { uid := "u-1", prompt := ⟨"select_account", ["select_account_prompt"], noDetails⟩,
    params := ⟨"aaa-client", some "select_account", [("scope", "openid")]⟩,
    session := none, grantId := none }

/-- Interaction requested with `prompt=select_account login`: the policy of lines 28-32
proposes `select_account`, and `params.prompt` is not the single word. -/
def atSelectAccountLogin : Details :=
  { uid := "u-1", prompt := ⟨"select_account", ["select_account_prompt"], noDetails⟩,
    params := ⟨"aaa-client", some "select_account login", [("scope", "openid")]⟩,
    session := none, grantId := none }

/-- A request for interaction `u-1` whose body carries the login `alice`. -/
def demoReq : Req := { uid := "u-1", login := some "alice" }

/-- The state before the first request: nothing persisted, nothing recorded. -/
def St.empty : St Unit := St.start () [] []

/-! ## Stepping lemmas -/

section Steps
variable {ε : Type}

theorem H.bind_eq {α β : Type} (m : H ε α) (f : α → H ε β) : (m >>= f) = H.andThen m f := rfl

theorem H.pure_eq {α : Type} (a : α) : (pure a : H ε α) = H.ret a := rfl

theorem H.throw_eq {α : Type} (e : Err) : (throw e : H ε α) = H.raise e := rfl

theorem H.tryCatch_eq {α : Type} (m : H ε α) (h : Err → H ε α) :
    tryCatch m h = H.handle m h := rfl

attribute [simp] H.bind_eq H.pure_eq H.throw_eq H.tryCatch_eq H.handle H.andThen H.emit
  H.engine H.ret H.raise callInteractionDetails callClientFind callFindByLogin
  callInteractionFinished callNext

theorem freshGrant_jti (jti accountId clientId : String) :
    (freshGrant jti accountId clientId).jti = jti := rfl

theorem callGrantNew_run (w : World ε) (accountId clientId : String) (st : St ε) :
    callGrantNew w accountId clientId st =
      (.ok (freshGrant (w.genGrantId st.eng).1 accountId clientId),
        { st with eng := (w.genGrantId st.eng).2,
                  trace := st.trace ++ [Event.grantNew accountId clientId] }) := by
  simp [callGrantNew]

theorem callGrantFind_ok (w : World ε) (grantId : String) (st : St ε)
    (h : w.grantFindError grantId st.eng = none) :
    callGrantFind w grantId st =
      (.ok (st.grants.lookup grantId),
        { st with trace := st.trace ++ [Event.grantFind grantId] }) := by
  simp [callGrantFind, h]

theorem callGrantFind_error (w : World ε) (grantId : String) (st : St ε) (e : Err)
    (h : w.grantFindError grantId st.eng = some e) :
    callGrantFind w grantId st =
      (.error e, { st with trace := st.trace ++ [Event.grantFind grantId] }) := by
  simp [callGrantFind, h]

theorem callGrantSave_ok (w : World ε) (g : Grant) (st : St ε)
    (h : w.grantSaveError g st.eng = none) :
    callGrantSave w (some g) st =
      (.ok g.jti, { st with grants := upsert st.grants g,
                            trace := st.trace ++ [Event.grantSave g, Event.grantSaved g.jti] }) := by
  simp [callGrantSave, definedGrant, h]

theorem callGrantSave_error (w : World ε) (g : Grant) (st : St ε) (e : Err)
    (h : w.grantSaveError g st.eng = some e) :
    callGrantSave w (some g) st =
      (.error e, { st with trace := st.trace ++ [Event.grantSave g] }) := by
  simp [callGrantSave, definedGrant, h]

theorem callGrantSave_undefined (w : World ε) (st : St ε) :
    callGrantSave w none st =
      (.error (Err.typeError ("Cannot read properties of undefined: " ++ "save")), st) := by
  simp [callGrantSave, definedGrant]

/-- The loop of lines 200-204 on a defined grant never throws. -/
theorem addResourceScopes_defined (entries : List (String × List String)) (g : Grant)
    (st : St ε) :
    addResourceScopes entries (some g) st =
      (.ok (some (applyResourceScopes entries g)),
        { st with trace := st.trace ++
            entries.map (fun e => Event.addResourceScope e.1 (jsJoin e.2)) }) := by
  induction entries generalizing g st with
  | nil => simp [addResourceScopes, applyResourceScopes]
  | cons e es ih =>
    obtain ⟨i, l⟩ := e
    simp [addResourceScopes, applyResourceScopes, callAddResourceScope, definedGrant, ih]

/-- Lines 194-204 on a defined grant: the `add*` calls are made in order and the grant is
`applyMissing`. -/
theorem mergeMissing_defined (D : PromptDetails) (g : Grant) (st : St ε) :
    mergeMissing D (some g) st =
      (.ok (some (applyMissing D g)), { st with trace := st.trace ++ mergeSteps D }) := by
  obtain ⟨a, b, c⟩ := D
  cases a <;> cases b <;> cases c <;>
    simp [mergeMissing, applyMissing, mergeSteps, callAddOIDCScope, callAddOIDCClaims,
      definedGrant, addResourceScopes_defined]

theorem addResourceScopes_undefined (entries : List (String × List String)) :
    ∃ r : Except Err (Option Grant), (r = .ok none ∨ ∃ e, r = .error e) ∧
      ∀ st : St ε, addResourceScopes entries none st = (r, st) := by
  cases entries with
  | nil => exact ⟨.ok none, Or.inl rfl, fun st => by simp [addResourceScopes]⟩
  | cons e es =>
    obtain ⟨i, l⟩ := e
    exact ⟨.error (Err.typeError ("Cannot read properties of undefined: " ++ "addResourceScope")),
      Or.inr ⟨_, rfl⟩, fun st => by simp [addResourceScopes, callAddResourceScope, definedGrant]⟩

/-- Lines 194-204 on `undefined`: no step is made; either nothing was to be added or the
first method call throws. -/
theorem mergeMissing_undefined (D : PromptDetails) :
    ∃ r : Except Err (Option Grant), (r = .ok none ∨ ∃ e, r = .error e) ∧
      ∀ st : St ε, mergeMissing D none st = (r, st) := by
  obtain ⟨a, b, c⟩ := D
  cases a with
  | some l =>
    exact ⟨.error (Err.typeError ("Cannot read properties of undefined: " ++ "addOIDCScope")),
      Or.inr ⟨_, rfl⟩, fun st => by simp [mergeMissing, callAddOIDCScope, definedGrant]⟩
  | none =>
    cases b with
    | some l =>
      exact ⟨.error (Err.typeError ("Cannot read properties of undefined: " ++ "addOIDCClaims")),
        Or.inr ⟨_, rfl⟩, fun st => by simp [mergeMissing, callAddOIDCClaims, definedGrant]⟩
    | none =>
      cases c with
      | none => exact ⟨.ok none, Or.inl rfl, fun st => by simp [mergeMissing]⟩
      | some es =>
        obtain ⟨r, hr, hm⟩ := @addResourceScopes_undefined ε es
        exact ⟨r, hr, fun st => by simp [mergeMissing, hm]⟩

theorem applyResourceScopes_jti (entries : List (String × List String)) (g : Grant) :
    (applyResourceScopes entries g).jti = g.jti := by
  induction entries generalizing g with
  | nil => rfl
  | cons e es ih =>
    obtain ⟨i, l⟩ := e
    simp [applyResourceScopes, ih, Grant.addResourceScope]

theorem applyMissing_jti (D : PromptDetails) (g : Grant) : (applyMissing D g).jti = g.jti := by
  obtain ⟨a, b, c⟩ := D
  cases a <;> cases b <;> cases c <;>
    simp [applyMissing, applyResourceScopes_jti, Grant.addOIDCScope, Grant.addOIDCClaims]

theorem not_finished_mem_mergeSteps (D : PromptDetails) (q : Req) (r : Result) (m : Bool) :
    Event.interactionFinished q r m ∉ mergeSteps D := by
  obtain ⟨a, b, c⟩ := D
  cases a <;> cases b <;> cases c <;> simp [mergeSteps]

/-- The steps of `abort`: the finalize call, then `next(err)` if the engine threw. -/
theorem abort_trace (w : World ε) (req : Req) (st : St ε) :
    (abort w req st).2.trace = st.trace ++ Event.interactionFinished req abortResult false ::
      (match (w.interactionFinished req abortResult false st.eng).1 with
        | .ok _ => []
        | .error e => [Event.next e]) := by
  rcases hq : w.interactionFinished req abortResult false st.eng with ⟨r, e1⟩
  cases r <;> simp [abort, hq]

/-- The `locals` object is built without a throw; it only moves the set `keys`. -/
theorem buildLocals_run (w : World ε) (c : Option Client) (d : Details) (title : String)
    (st : St ε) :
    buildLocals w c d title st =
      (.ok (localsOf w c d title st.keys).1, { st with keys := (localsOf w c d title st.keys).2 }) := by
  cases hs : d.session <;>
    simp [buildLocals, debugSession, hs, callDebug, localsOf]

theorem callRender_run (w : World ε) (view : String) (locals : Locals) (st : St ε) :
    callRender w view locals st =
      (match w.renderError view locals with
        | some e => .error e
        | none => .ok (),
       { st with trace := st.trace ++ [Event.render view locals] }) := by
  cases h : w.renderError view locals <;> simp [callRender, h]

/-- The steps of lines 112-147: one render for `login` or `consent`, followed by
`next(err)` if the render threw; nothing at all for any other prompt name. -/
theorem renderPrompt_run (w : World ε) (c : Option Client) (d : Details) (st : St ε) :
    renderPrompt w c d st =
      if d.prompt.name = "login" then
        (.ok (), { st with
          keys := (localsOf w c d "Sign-in" st.keys).2
          trace := st.trace ++ Event.render "login" (localsOf w c d "Sign-in" st.keys).1 ::
            (match w.renderError "login" (localsOf w c d "Sign-in" st.keys).1 with
              | some e => [Event.next e]
              | none => []) })
      else if d.prompt.name = "consent" then
        (.ok (), { st with
          keys := (localsOf w c d "Authorize" st.keys).2
          trace := st.trace ++ Event.render "interaction" (localsOf w c d "Authorize" st.keys).1 ::
            (match w.renderError "interaction" (localsOf w c d "Authorize" st.keys).1 with
              | some e => [Event.next e]
              | none => []) })
      else (.ok (), st) := by
  by_cases h1 : d.prompt.name = "login"
  · cases h : w.renderError "login" (localsOf w c d "Sign-in" st.keys).1 <;>
      simp [renderPrompt, h1, buildLocals_run, callRender_run, h]
  · by_cases h2 : d.prompt.name = "consent"
    · cases h : w.renderError "interaction" (localsOf w c d "Authorize" st.keys).1 <;>
        simp [renderPrompt, h1, h2, buildLocals_run, callRender_run, h]
    · simp [renderPrompt, h1, h2]

theorem rewriteSelectAccount_client_id (d : Details) :
    (rewriteSelectAccount d).params.client_id = d.params.client_id := by
  unfold rewriteSelectAccount
  split <;> rfl

/-- Lines 101-105 never throw; the handler goes on with `rewriteSelectAccount`. -/
theorem rewriteInPlace_run (w : World ε) (req : Req) (d : Details) (st : St ε) :
    rewriteInPlace w req d st =
      (.ok (rewriteSelectAccount d),
        if d.params.prompt = some "select_account" then
          { st with eng := w.assigned req (rewriteSelectAccount d) st.eng
                    writes := st.writes ++ [rewriteSelectAccount d] }
        else st) := by
  by_cases h : d.params.prompt = some "select_account" <;>
    simp [rewriteInPlace, rewriteSelectAccount, h]

/-- The steps of `getDetails` when both awaited calls return. -/
theorem getDetails_run (w : World ε) (req : Req) (st : St ε) (d : Details) (eng1 : ε)
    (c : Option Client) (eng2 : ε) (h1 : w.interactionDetails req st.eng = (.ok d, eng1))
    (h2 : w.clientFind d.params.client_id
      (if d.params.prompt = some "select_account" then
        w.assigned req (rewriteSelectAccount d) eng1 else eng1) = (.ok c, eng2)) :
    getDetails w req st =
      renderPrompt w c (rewriteSelectAccount d)
        { st with eng := eng2
                  trace := st.trace ++ [Event.interactionDetails req, Event.detailsLoaded d,
                    Event.clientFind d.params.client_id]
                  writes := if d.params.prompt = some "select_account" then
                    st.writes ++ [rewriteSelectAccount d] else st.writes } := by
  by_cases h : d.params.prompt = some "select_account"
  · simp only [h, if_true] at h2
    simp [getDetails, h1, rewriteInPlace_run, rewriteSelectAccount_client_id, h2, h]
  · simp only [h, if_false] at h2
    simp [getDetails, h1, rewriteInPlace_run, rewriteSelectAccount_client_id, h2, h]

end Steps

/-! ## Splitting and joining -/

theorem splitChars_ne_nil (cs : List Char) : splitChars cs ≠ [] := by
  induction cs with
  | nil => simp [splitChars]
  | cons c cs ih =>
    simp only [splitChars]
    split
    · simp
    · split <;> simp

/-- A word without a space is its own only piece. -/
theorem splitChars_word (w : List Char) (hw : ' ' ∉ w) : splitChars w = [w] := by
  induction w with
  | nil => rfl
  | cons c cs ih =>
    have hc : c ≠ ' ' := fun h => hw (by simp [h])
    have hcs : ' ' ∉ cs := fun h => hw (by simp [h])
    simp [splitChars, hc, ih hcs]

/-- A word without a space, a space, and more: the word is the first piece. -/
theorem splitChars_word_space (w rest : List Char) (hw : ' ' ∉ w) :
    splitChars (w ++ ' ' :: rest) = w :: splitChars rest := by
  induction w with
  | nil => simp [splitChars]
  | cons c cs ih =>
    have hc : c ≠ ' ' := fun h => hw (by simp [h])
    have hcs : ' ' ∉ cs := fun h => hw (by simp [h])
    simp [splitChars, hc, ih hcs]

/-- Splitting undoes joining for a non-empty list of words without spaces. -/
theorem splitChars_joinChars (ws : List (List Char)) (hne : ws ≠ [])
    (hw : ∀ w ∈ ws, ' ' ∉ w) : splitChars (joinChars ws) = ws := by
  induction ws with
  | nil => exact absurd rfl hne
  | cons w rest ih =>
    cases rest with
    | nil => simpa [joinChars] using splitChars_word w (hw w (by simp))
    | cons w2 rest2 =>
      have h1 : ' ' ∉ w := hw w (by simp)
      have h2 := ih (by simp) (fun v hv => hw v (by simp [hv]))
      simp only [joinChars] at h2 ⊢
      rw [splitChars_word_space _ _ h1, h2]

theorem jsSplit_jsJoin (scopes : List String) (h : cleanScopes scopes = true) :
    jsSplit (jsJoin scopes) = scopes := by
  simp only [cleanScopes, Bool.and_eq_true, Bool.not_eq_true', List.all_eq_true] at h
  obtain ⟨hne, hall⟩ := h
  have hne' : scopes.map String.data ≠ [] := by
    cases scopes with
    | nil => simp at hne
    | cons a l => simp
  have hw : ∀ w ∈ scopes.map String.data, ' ' ∉ w := by
    intro w hwm
    obtain ⟨s, hs, rfl⟩ := List.mem_map.mp hwm
    have := hall s hs
    simpa using this
  simp only [jsSplit, jsJoin]
  rw [splitChars_joinChars _ hne' hw]
  simp [List.map_map, Function.comp_def]

/-! ## Grants as sets -/

theorem union_eq_right_of_subset (l g : List String) (h : l ⊆ g) : l ∪ g = g := by
  induction l with
  | nil => simp
  | cons a l ih =>
    have ha : a ∈ g := h (by simp)
    have hl : l ⊆ g := fun x hx => h (by simp [hx])
    rw [List.cons_union, ih hl, List.insert_of_mem ha]

theorem scopesOf_nil (j : String) : scopesOf [] j = [] := rfl

theorem scopesOf_cons (k : String) (v : List String) (m : List (String × List String))
    (j : String) : scopesOf ((k, v) :: m) j = if j = k then v else scopesOf m j := by
  by_cases h : j = k
  · subst h; simp [scopesOf]
  · have : (j == k) = false := by simpa using h
    simp [scopesOf, List.lookup_cons, this, h]

theorem mem_scopesOf_addToIndicator (m : List (String × List String)) (i : String)
    (new : List String) (j s : String) :
    s ∈ scopesOf (addToIndicator m i new) j ↔ s ∈ scopesOf m j ∨ (j = i ∧ s ∈ new) := by
  induction m with
  | nil =>
    by_cases h : j = i <;> simp [addToIndicator, scopesOf_cons, scopesOf_nil, h]
  | cons e m ih =>
    obtain ⟨k, v⟩ := e
    by_cases hk : k = i
    · subst hk
      by_cases h : j = k
      · simp [addToIndicator, scopesOf_cons, h, or_comm]
      · simp [addToIndicator, scopesOf_cons, h]
    · by_cases h : j = k
      · have hji : j ≠ i := fun hc => hk (h ▸ hc)
        simp [addToIndicator, scopesOf_cons, hk, h, hji]
      · simp [addToIndicator, scopesOf_cons, hk, h, ih]

theorem keys_addToIndicator (m : List (String × List String)) (i : String)
    (new : List String) :
    (addToIndicator m i new).map Prod.fst =
      if i ∈ m.map Prod.fst then m.map Prod.fst else m.map Prod.fst ++ [i] := by
  induction m with
  | nil => simp [addToIndicator]
  | cons e m ih =>
    obtain ⟨k, v⟩ := e
    by_cases hk : k = i
    · simp [addToIndicator, hk]
    · have hik : i ≠ k := fun h => hk h.symm
      simp only [addToIndicator, hk, if_false, List.map_cons, ih, List.mem_cons, hik, false_or]
      split <;> simp

theorem nodup_keys_addToIndicator (m : List (String × List String)) (i : String)
    (new : List String) (h : (m.map Prod.fst).Nodup) :
    ((addToIndicator m i new).map Prod.fst).Nodup := by
  rw [keys_addToIndicator]
  split
  · exact h
  · rename_i hi
    exact List.Nodup.append h (by simp) (by simpa using hi)

theorem nodup_entries_addToIndicator (m : List (String × List String)) (i : String)
    (new : List String) (h : ∀ e ∈ m, e.2.Nodup) :
    ∀ e ∈ addToIndicator m i new, e.2.Nodup := by
  induction m with
  | nil =>
    intro e he
    simp only [addToIndicator, List.mem_singleton] at he
    subst he
    exact List.Nodup.union _ List.nodup_nil
  | cons e0 m ih =>
    obtain ⟨k, v⟩ := e0
    have hv : v.Nodup := h (k, v) (by simp)
    have hm : ∀ e ∈ m, e.2.Nodup := fun e he => h e (by simp [he])
    intro e he
    by_cases hk : k = i
    · simp only [addToIndicator, hk, if_true, List.mem_cons] at he
      rcases he with rfl | he
      · exact List.Nodup.union _ hv
      · exact hm e he
    · simp only [addToIndicator, hk, if_false, List.mem_cons] at he
      rcases he with rfl | he
      · exact hv
      · exact ih hm e he

theorem addToIndicator_eq_self (m : List (String × List String)) (i : String)
    (new : List String) (hne : new ≠ []) (h : new ⊆ scopesOf m i) :
    addToIndicator m i new = m := by
  induction m with
  | nil =>
    cases new with
    | nil => exact absurd rfl hne
    | cons a l => simpa [scopesOf_nil] using h (List.mem_cons_self a l)
  | cons e m ih =>
    obtain ⟨k, v⟩ := e
    by_cases hk : k = i
    · subst hk
      simp only [scopesOf_cons, if_true] at h
      simp [addToIndicator, union_eq_right_of_subset _ _ h]
    · have hik : i ≠ k := fun hc => hk hc.symm
      simp only [scopesOf_cons, hik, if_false] at h
      simp [addToIndicator, hk, ih h]

theorem applyResourceScopes_fields (es : List (String × List String)) (g : Grant) :
    applyResourceScopes es g =
      { g with resourceScopes :=
          es.foldl (fun m e => addToIndicator m e.1 (jsSplit (jsJoin e.2))) g.resourceScopes } := by
  induction es generalizing g with
  | nil => rfl
  | cons e es ih =>
    obtain ⟨i, l⟩ := e
    simp [applyResourceScopes, ih, Grant.addResourceScope]

theorem mem_scopesOf_fold (es : List (String × List String))
    (hc : ∀ e ∈ es, cleanScopes e.2 = true) (m : List (String × List String)) (j s : String) :
    s ∈ scopesOf (es.foldl (fun m e => addToIndicator m e.1 (jsSplit (jsJoin e.2))) m) j ↔
      s ∈ scopesOf m j ∨ ∃ e ∈ es, e.1 = j ∧ s ∈ e.2 := by
  induction es generalizing m with
  | nil => simp
  | cons e es ih =>
    have h1 := hc e (by simp)
    have h2 : ∀ e' ∈ es, cleanScopes e'.2 = true := fun e' he => hc e' (by simp [he])
    simp only [List.foldl_cons, ih h2, mem_scopesOf_addToIndicator, jsSplit_jsJoin _ h1,
      List.mem_cons, exists_eq_or_imp]
    constructor
    · rintro ((h | ⟨rfl, h⟩) | h)
      · exact Or.inl h
      · exact Or.inr (Or.inl ⟨rfl, h⟩)
      · exact Or.inr (Or.inr h)
    · rintro (h | ⟨rfl, h⟩ | h)
      · exact Or.inl (Or.inl h)
      · exact Or.inl (Or.inr ⟨rfl, h⟩)
      · exact Or.inr h

theorem nodup_fold (es : List (String × List String)) (m : List (String × List String))
    (hk : (m.map Prod.fst).Nodup) (hv : ∀ e ∈ m, e.2.Nodup) :
    ((es.foldl (fun m e => addToIndicator m e.1 (jsSplit (jsJoin e.2))) m).map Prod.fst).Nodup ∧
      ∀ e ∈ es.foldl (fun m e => addToIndicator m e.1 (jsSplit (jsJoin e.2))) m, e.2.Nodup := by
  induction es generalizing m with
  | nil => exact ⟨hk, hv⟩
  | cons e es ih =>
    exact ih _ (nodup_keys_addToIndicator m _ _ hk) (nodup_entries_addToIndicator m _ _ hv)

theorem fold_eq_self (es : List (String × List String)) (m : List (String × List String))
    (hc : ∀ e ∈ es, cleanScopes e.2 = true) (hs : ∀ e ∈ es, e.2 ⊆ scopesOf m e.1) :
    es.foldl (fun m e => addToIndicator m e.1 (jsSplit (jsJoin e.2))) m = m := by
  induction es with
  | nil => rfl
  | cons e es ih =>
    have h1 := hc e (by simp)
    have hne : e.2 ≠ [] := by
      intro h0
      simp [cleanScopes, h0] at h1
    rw [List.foldl_cons, jsSplit_jsJoin _ h1, addToIndicator_eq_self m e.1 e.2 hne (hs e (by simp))]
    exact ih (fun e' he => hc e' (by simp [he])) (fun e' he => hs e' (by simp [he]))

theorem mem_deltaResource (D : PromptDetails) (j s : String) :
    s ∈ deltaResource D j ↔ ∃ e ∈ deltaEntries D, e.1 = j ∧ s ∈ e.2 := by
  simp only [deltaResource, List.mem_flatMap, List.mem_filter, beq_iff_eq]
  constructor
  · rintro ⟨e, ⟨he, hj⟩, hs⟩
    exact ⟨e, he, hj, hs⟩
  · rintro ⟨e, he, hj, hs⟩
    exact ⟨e, ⟨he, hj⟩, hs⟩

theorem cleanDelta_scopes (D : PromptDetails) (h : cleanDelta D = true) :
    ∀ l, D.missingOIDCScope = some l → cleanScopes l = true := by
  intro l hl
  simp only [cleanDelta, hl, Bool.and_eq_true] at h
  exact h.1

theorem cleanDelta_entries (D : PromptDetails) (h : cleanDelta D = true) :
    ∀ e ∈ deltaEntries D, cleanScopes e.2 = true := by
  intro e he
  cases hm : D.missingResourceScopes with
  | none => simp [deltaEntries, hm] at he
  | some m =>
    simp only [cleanDelta, hm, Bool.and_eq_true, List.all_eq_true] at h
    simp only [deltaEntries, hm, Option.getD_some] at he
    exact h.2 e he

/-- The three collections `applyMissing` leaves. -/
theorem applyMissing_fields (D : PromptDetails) (g : Grant) :
    applyMissing D g =
      { g with
        oidcScopes :=
          match D.missingOIDCScope with
          | some l => jsSplit (jsJoin l) ∪ g.oidcScopes
          | none => g.oidcScopes
        oidcClaims := deltaClaims D ∪ g.oidcClaims
        resourceScopes :=
          (deltaEntries D).foldl (fun m e => addToIndicator m e.1 (jsSplit (jsJoin e.2)))
            g.resourceScopes } := by
  obtain ⟨a, b, c⟩ := D
  cases a <;> cases b <;> cases c <;>
    simp [applyMissing, applyResourceScopes_fields, Grant.addOIDCScope, Grant.addOIDCClaims,
      deltaClaims, deltaEntries]

theorem mem_applyMissing_oidcScopes (D : PromptDetails) (h : cleanDelta D = true) (g : Grant)
    (s : String) :
    s ∈ (applyMissing D g).oidcScopes ↔ s ∈ g.oidcScopes ∨ s ∈ deltaScopes D := by
  rw [applyMissing_fields]
  cases hl : D.missingOIDCScope with
  | none => simp [deltaScopes, hl]
  | some l => simp [deltaScopes, hl, jsSplit_jsJoin l (cleanDelta_scopes D h l hl), or_comm]

theorem mem_applyMissing_oidcClaims (D : PromptDetails) (g : Grant) (s : String) :
    s ∈ (applyMissing D g).oidcClaims ↔ s ∈ g.oidcClaims ∨ s ∈ deltaClaims D := by
  rw [applyMissing_fields]
  simp [or_comm]

theorem mem_applyMissing_resourceScopes (D : PromptDetails) (h : cleanDelta D = true)
    (g : Grant) (i s : String) :
    s ∈ scopesOf (applyMissing D g).resourceScopes i ↔
      s ∈ scopesOf g.resourceScopes i ∨ s ∈ deltaResource D i := by
  rw [applyMissing_fields, mem_deltaResource]
  exact mem_scopesOf_fold _ (cleanDelta_entries D h) _ i s

theorem applyMissing_noDup (D : PromptDetails) (g : Grant) (hg : g.NoDup) :
    (applyMissing D g).NoDup := by
  obtain ⟨h1, h2, h3, h4⟩ := hg
  rw [applyMissing_fields]
  refine ⟨?_, List.Nodup.union _ h2, (nodup_fold _ _ h3 h4).1, (nodup_fold _ _ h3 h4).2⟩
  cases D.missingOIDCScope with
  | none => exact h1
  | some l => exact List.Nodup.union _ h1

theorem applyMissing_eq_self (D : PromptDetails) (h : cleanDelta D = true) (g : Grant)
    (hs : SubDelta D g) : applyMissing D g = g := by
  obtain ⟨h1, h2, h3⟩ := hs
  rw [applyMissing_fields, fold_eq_self _ _ (cleanDelta_entries D h) h3,
    union_eq_right_of_subset _ _ h2]
  cases hl : D.missingOIDCScope with
  | none => rfl
  | some l =>
    have : l ⊆ g.oidcScopes := by simpa [deltaScopes, hl] using h1
    simp [jsSplit_jsJoin l (cleanDelta_scopes D h l hl), union_eq_right_of_subset _ _ this]

theorem subDelta_applyMissing (D : PromptDetails) (h : cleanDelta D = true) (g : Grant) :
    SubDelta D (applyMissing D g) := by
  refine ⟨?_, ?_, ?_⟩
  · intro s hs
    exact (mem_applyMissing_oidcScopes D h g s).mpr (Or.inr hs)
  · intro s hs
    exact (mem_applyMissing_oidcClaims D g s).mpr (Or.inr hs)
  · intro e he s hs
    exact (mem_applyMissing_resourceScopes D h g e.1 s).mpr
      (Or.inr ((mem_deltaResource D e.1 s).mpr ⟨e, he, rfl, hs⟩))

/-! ## Claims -/

section Claims

variable {ε : Type}

/-- C3: every `abort` request adds exactly one call of `provider.interactionFinished` to
the trace, with result `{error: 'access_denied', error_description: 'End-User aborted
interaction'}` and `mergeWithLastSubmission: false`, whatever the world, the request and
the state are. -/
theorem abort_calls_interactionFinished_once (w : World ε) (req : Req) (st : St ε) :
    (abort w req st).2.trace.filter isFinished = st.trace.filter isFinished ++
      [Event.interactionFinished req
        (Result.error "access_denied" "End-User aborted interaction") false] := by
  rw [abort_trace]
  cases (w.interactionFinished req abortResult false st.eng).1 <;>
    simp [isFinished, abortResult]

/-- C2: when the engine returns details `d`, `submitLogin` calls
`provider.interactionFinished` if and only if `d.prompt.name` is `login` and
`Account.findByLogin(req.body.login)` yields an account; it then calls it exactly once,
with `{login: {accountId}}` of that account and `mergeWithLastSubmission: false`; when
the name is not `login` the only steps are the details call and `next` of the assertion
error, and engine state and grants are as the details call left them. -/
theorem submitLogin_finalizes_iff_login_and_account (w : World ε) (req : Req) (st : St ε)
    (d : Details) (eng1 : ε) (h : w.interactionDetails req st.eng = (.ok d, eng1)) :
    ∃ new, (submitLogin w req st).2.trace = st.trace ++ new ∧
      ((∃ e ∈ new, isFinished e = true) ↔
        (d.prompt.name = "login" ∧
          ∃ a eng2, w.findByLogin req.login eng1 = (.ok (some a), eng2))) ∧
      (∀ a eng2, d.prompt.name = "login" →
        w.findByLogin req.login eng1 = (.ok (some a), eng2) →
        new.filter isFinished =
          [Event.interactionFinished req (Result.login a.accountId) false]) ∧
      (d.prompt.name ≠ "login" →
        new = [Event.interactionDetails req, Event.detailsLoaded d,
               Event.next (Err.assertion d.prompt.name "login")] ∧
        (submitLogin w req st).2.eng = eng1 ∧ (submitLogin w req st).2.grants = st.grants) := by
  by_cases hn : d.prompt.name = "login"
  · rcases hf : w.findByLogin req.login eng1 with ⟨r, eng2⟩
    rcases r with e | (_ | a)
    · refine ⟨[Event.interactionDetails req, Event.detailsLoaded d,
        Event.findByLogin req.login, Event.next e], ?_, ?_, ?_, ?_⟩
      · simp [submitLogin, submitLoginBody, h, hn, hf]
      · simp [isFinished, hn]
      · simp
      · simp [hn]
    · refine ⟨[Event.interactionDetails req, Event.detailsLoaded d,
        Event.findByLogin req.login,
        Event.next (Err.typeError "Cannot read properties of undefined: accountId")],
        ?_, ?_, ?_, ?_⟩
      · simp [submitLogin, submitLoginBody, h, hn, hf]
      · simp [isFinished, hn]
      · simp
      · simp [hn]
    · refine ⟨[Event.interactionDetails req, Event.detailsLoaded d,
        Event.findByLogin req.login,
        Event.interactionFinished req (Result.login a.accountId) false] ++
        (match (w.interactionFinished req (Result.login a.accountId) false eng2).1 with
          | .ok _ => []
          | .error e => [Event.next e]), ?_, ?_, ?_, ?_⟩
      · rcases hq : w.interactionFinished req (Result.login a.accountId) false eng2 with ⟨r, e3⟩
        cases r <;> simp [submitLogin, submitLoginBody, h, hn, hf, hq]
      · simp [isFinished, hn]
      · intro a' eng2' _ h'
        cases h'
        cases (w.interactionFinished req (Result.login a.accountId) false eng2).1 <;>
          simp [isFinished]
      · simp [hn]
  · refine ⟨[Event.interactionDetails req, Event.detailsLoaded d,
      Event.next (Err.assertion d.prompt.name "login")], ?_, ?_, ?_, ?_⟩
    · simp [submitLogin, submitLoginBody, h, hn]
    · simp [isFinished, hn]
    · simp [hn]
    · intro _
      simp [submitLogin, submitLoginBody, h, hn]

/-- The shape of a finalize call of the confirm handler, if there is one. -/
theorem submitConsent_handoff_shape (w : World ε) (req : Req) (eng : ε) (grants : GrantStore)
    (keys : List String) (d : Details) (eng1 : ε)
    (h : w.interactionDetails req eng = (.ok d, eng1)) (q : Req) (r : Result) (m : Bool)
    (hf : Event.interactionFinished q r m ∈
      (submitConsent w req (St.start eng grants keys)).2.trace) :
    m = true ∧ q = req ∧ ∃ (s : Session) (g0 : Grant),
      d.session = some s ∧
      Event.grantSave (applyMissing d.prompt.details g0) ∈
        (submitConsent w req (St.start eng grants keys)).2.trace ∧
      Event.grantSaved g0.jti ∈ (submitConsent w req (St.start eng grants keys)).2.trace ∧
      (d.grantId = none ∨ d.grantId = some "" →
        Event.grantNew s.accountId d.params.client_id ∈
          (submitConsent w req (St.start eng grants keys)).2.trace ∧
        g0 = freshGrant (w.genGrantId eng1).1 s.accountId d.params.client_id ∧
        r = Result.consent ⟨some g0.jti⟩) ∧
      (∀ id, d.grantId = some id → id ≠ "" →
        Event.grantFind id ∈ (submitConsent w req (St.start eng grants keys)).2.trace ∧
        grants.lookup id = some g0 ∧ r = Result.consent ⟨none⟩) ∧
      ((∃ id, r = Result.consent ⟨some id⟩) ↔ (d.grantId = none ∨ d.grantId = some "")) := by
  obtain ⟨uid, ⟨name, reasons, D⟩, params, session, grantId⟩ := d
  cases session with
  | none => simp [submitConsent, submitConsentBody, St.start, h] at hf
  | some s =>
    by_cases hn : name = "consent"
    · subst hn
      by_cases hg : grantId = none ∨ grantId = some ""
      · have ht : truthyStr grantId = false := by
          rcases hg with rfl | rfl <;> simp [truthyStr]
        rcases hs : w.grantSaveError (applyMissing D (freshGrant (w.genGrantId eng1).1
          s.accountId params.client_id)) (w.genGrantId eng1).2 with _ | e
        · rcases hq : w.interactionFinished req (Result.consent ⟨some (w.genGrantId eng1).1⟩)
            true (w.genGrantId eng1).2 with ⟨r1, e3⟩
          cases r1 <;>
          · simp [submitConsent, submitConsentBody, St.start, h, ht, callGrantNew_run,
              callGrantSave_ok, mergeMissing_defined, hs, hq, applyMissing_jti, freshGrant_jti,
              not_finished_mem_mergeSteps] at hf ⊢
            obtain ⟨rfl, rfl, rfl⟩ := hf
            refine ⟨rfl, rfl, freshGrant (w.genGrantId eng1).1 s.accountId params.client_id,
              Or.inr rfl, Or.inr rfl, ?_, ?_, ?_⟩
            · intro _
              simp [freshGrant_jti]
            · intro id hid hne
              rcases hg with hg | hg <;> simp_all
            · simp [hg]
        · simp [submitConsent, submitConsentBody, St.start, h, ht, callGrantNew_run,
            callGrantSave_error, mergeMissing_defined, hs,
            not_finished_mem_mergeSteps] at hf
      · obtain ⟨id, rfl, hid⟩ : ∃ id, grantId = some id ∧ id ≠ "" := by
          cases grantId with
          | none => simp at hg
          | some id => exact ⟨id, rfl, fun hc => hg (Or.inr (by rw [hc]))⟩
        have ht : truthyStr (some id) = true := by simp [truthyStr, hid]
        rcases hfe : w.grantFindError id eng1 with _ | e
        · rcases hl : grants.lookup id with _ | g0
          · obtain ⟨r0, hr0, hm⟩ := @mergeMissing_undefined ε D
            rcases hr0 with rfl | ⟨e, rfl⟩ <;>
              simp [submitConsent, submitConsentBody, St.start, h, ht, callGrantFind_ok, hfe, hl,
                hm, callGrantSave_undefined] at hf
          · rcases hs : w.grantSaveError (applyMissing D g0) eng1 with _ | e
            · rcases hq : w.interactionFinished req (Result.consent ⟨none⟩) true eng1
                with ⟨r1, e3⟩
              cases r1 <;>
              · simp [submitConsent, submitConsentBody, St.start, h, ht, callGrantFind_ok, hfe,
                  hl, callGrantSave_ok, mergeMissing_defined, hs, hq, applyMissing_jti,
                  not_finished_mem_mergeSteps] at hf ⊢
                obtain ⟨rfl, rfl, rfl⟩ := hf
                refine ⟨rfl, rfl, g0, Or.inr rfl, Or.inr rfl, ?_, ?_⟩
                · intro hc
                  exact absurd hc hid
                · simp [hid]
            · simp [submitConsent, submitConsentBody, St.start, h, ht, callGrantFind_ok, hfe,
                hl, callGrantSave_error, mergeMissing_defined, hs,
                not_finished_mem_mergeSteps] at hf
        · simp [submitConsent, submitConsentBody, St.start, h, ht, callGrantFind_error, hfe]
            at hf
    · simp [submitConsent, submitConsentBody, St.start, h, hn] at hf

/-- Steps of `submitConsent` when the prompt name is not `consent`: the details call and
`next` of the thrown error, which is the `TypeError` of the destructuring when there is no
session and the assertion error otherwise; the state is as the details call left it. -/
theorem submitConsent_mismatch_steps (w : World ε) (req : Req) (st : St ε) (d : Details)
    (eng1 : ε) (h : w.interactionDetails req st.eng = (.ok d, eng1))
    (hn : d.prompt.name ≠ "consent") :
    (submitConsent w req st).2 =
      { st with
        eng := eng1
        trace := st.trace ++ [Event.interactionDetails req, Event.detailsLoaded d,
          Event.next (match d.session with
            | some _ => Err.assertion d.prompt.name "consent"
            | none => Err.typeError "Cannot destructure property accountId of undefined")] } := by
  obtain ⟨uid, ⟨name, reasons, D⟩, params, session, grantId⟩ := d
  cases session <;> simp_all [submitConsent, submitConsentBody]

/-- C1: at the login prompt of an interaction without a session, a confirm request ends
in `next` of a `TypeError` (thrown by the destructuring of line 177), not of the assertion
error of line 178; no finalize call and no grant step is made. -/
theorem submitConsent_at_login_without_session :
    (submitConsent (fixedWorld atLogin (.ok ())) demoReq St.empty).2.trace =
      [Event.interactionDetails demoReq, Event.detailsLoaded atLogin,
        Event.next (Err.typeError "Cannot destructure property accountId of undefined")] ∧
    Event.next (Err.assertion "login" "consent") ∉
      (submitConsent (fixedWorld atLogin (.ok ())) demoReq St.empty).2.trace := by
  decide

/-- C10, the claim refuted: `save` succeeds, `provider.interactionFinished` throws, the
request ends in `next(err)`, and the new grant stays in the store. -/
theorem submitConsent_rollback_counterexample :
    (∃ err, Event.next err ∈
      (submitConsent (fixedWorld atConsent (.error (Err.engine "SessionNotFound"))) demoReq
        St.empty).2.trace) ∧
    (submitConsent (fixedWorld atConsent (.error (Err.engine "SessionNotFound"))) demoReq
        St.empty).2.grants =
      [("g-1", { jti := "g-1", accountId := "acc-1", clientId := "aaa-client",
                 oidcScopes := ["openid", "email"], oidcClaims := [], resourceScopes := [] })] ∧
    (submitConsent (fixedWorld atConsent (.error (Err.engine "SessionNotFound"))) demoReq
        St.empty).2.grants ≠ St.empty.grants := by
  refine ⟨⟨Err.engine "SessionNotFound", by decide⟩, by decide, by decide⟩

theorem not_next_mem_mergeSteps (D : PromptDetails) (err : Err) :
    Event.next err ∉ mergeSteps D := by
  obtain ⟨a, b, c⟩ := D
  cases a <;> cases b <;> cases c <;> simp [mergeSteps]

theorem not_grantSave_mem_mergeSteps (D : PromptDetails) (g : Grant) :
    Event.grantSave g ∉ mergeSteps D := by
  obtain ⟨a, b, c⟩ := D
  cases a <;> cases b <;> cases c <;> simp [mergeSteps]

/-- C10, amended: a confirm request in which `provider.interactionFinished` is not
called ends in `next(err)` and leaves the persisted grants as they were; a request in
which it is called has saved a grant before, and that grant stays in the store whatever
`provider.interactionFinished` does. -/
theorem submitConsent_store_only_changed_by_successful_save (w : World ε) (req : Req) (eng : ε)
    (grants : GrantStore) (keys : List String) :
    ((∀ q r m, Event.interactionFinished q r m ∉
        (submitConsent w req (St.start eng grants keys)).2.trace) →
      (∃ err, Event.next err ∈ (submitConsent w req (St.start eng grants keys)).2.trace) ∧
      (submitConsent w req (St.start eng grants keys)).2.grants = grants) ∧
    ((∃ q r m, Event.interactionFinished q r m ∈
        (submitConsent w req (St.start eng grants keys)).2.trace) →
      ∃ g, Event.grantSave g ∈ (submitConsent w req (St.start eng grants keys)).2.trace ∧
        (submitConsent w req (St.start eng grants keys)).2.grants = upsert grants g) := by
  rcases h : w.interactionDetails req eng with ⟨r, eng1⟩
  rcases r with e | d
  · simp [submitConsent, submitConsentBody, St.start, h]
  obtain ⟨uid, ⟨name, reasons, D⟩, params, session, grantId⟩ := d
  cases session with
  | none => simp [submitConsent, submitConsentBody, St.start, h]
  | some s =>
    by_cases hn : name = "consent"
    · subst hn
      have hm := not_finished_mem_mergeSteps D
      have hm2 := not_next_mem_mergeSteps D
      by_cases hg : grantId = none ∨ grantId = some ""
      · have ht : truthyStr grantId = false := by
          rcases hg with rfl | rfl <;> simp [truthyStr]
        rcases hs : w.grantSaveError (applyMissing D (freshGrant (w.genGrantId eng1).1
          s.accountId params.client_id)) (w.genGrantId eng1).2 with _ | e
        · rcases hq : w.interactionFinished req (Result.consent ⟨some (w.genGrantId eng1).1⟩)
            true (w.genGrantId eng1).2 with ⟨r1, e3⟩
          have key : Event.interactionFinished req
                (Result.consent ⟨some (w.genGrantId eng1).1⟩) true ∈
                (submitConsent w req (St.start eng grants keys)).2.trace ∧
              Event.grantSave (applyMissing D (freshGrant (w.genGrantId eng1).1
                s.accountId params.client_id)) ∈
                (submitConsent w req (St.start eng grants keys)).2.trace ∧
              (submitConsent w req (St.start eng grants keys)).2.grants =
                upsert grants (applyMissing D (freshGrant (w.genGrantId eng1).1
                  s.accountId params.client_id)) := by
            cases r1 <;>
              simp [submitConsent, submitConsentBody, St.start, h, ht, callGrantNew_run,
                callGrantSave_ok, mergeMissing_defined, hs, hq, applyMissing_jti,
                freshGrant_jti]
          exact ⟨fun hc => absurd key.1 (hc _ _ _), fun _ => ⟨_, key.2.1, key.2.2⟩⟩
        · simp [submitConsent, submitConsentBody, St.start, h, ht, callGrantNew_run,
            callGrantSave_error, mergeMissing_defined, hs, hm, hm2]
      · obtain ⟨id, rfl, hid⟩ : ∃ id, grantId = some id ∧ id ≠ "" := by
          cases grantId with
          | none => simp at hg
          | some id => exact ⟨id, rfl, fun hc => hg (Or.inr (by rw [hc]))⟩
        have ht : truthyStr (some id) = true := by simp [truthyStr, hid]
        rcases hfe : w.grantFindError id eng1 with _ | e
        · rcases hl : grants.lookup id with _ | g0
          · obtain ⟨r0, hr0, hm0⟩ := @mergeMissing_undefined ε D
            rcases hr0 with rfl | ⟨e, rfl⟩ <;>
              simp [submitConsent, submitConsentBody, St.start, h, ht, callGrantFind_ok, hfe, hl,
                hm0, callGrantSave_undefined]
          · rcases hs : w.grantSaveError (applyMissing D g0) eng1 with _ | e
            · rcases hq : w.interactionFinished req (Result.consent ⟨none⟩) true eng1
                with ⟨r1, e3⟩
              have key : Event.interactionFinished req (Result.consent ⟨none⟩) true ∈
                    (submitConsent w req (St.start eng grants keys)).2.trace ∧
                  Event.grantSave (applyMissing D g0) ∈
                    (submitConsent w req (St.start eng grants keys)).2.trace ∧
                  (submitConsent w req (St.start eng grants keys)).2.grants =
                    upsert grants (applyMissing D g0) := by
                cases r1 <;>
                  simp [submitConsent, submitConsentBody, St.start, h, ht, callGrantFind_ok,
                    hfe, hl, callGrantSave_ok, mergeMissing_defined, hs, hq, applyMissing_jti]
              exact ⟨fun hc => absurd key.1 (hc _ _ _), fun _ => ⟨_, key.2.1, key.2.2⟩⟩
            · simp [submitConsent, submitConsentBody, St.start, h, ht, callGrantFind_ok, hfe,
                hl, callGrantSave_error, mergeMissing_defined, hs, hm, hm2]
        · simp [submitConsent, submitConsentBody, St.start, h, ht, callGrantFind_error, hfe]
    · simp [submitConsent, submitConsentBody, St.start, h, hn]

/-- The finalize calls of one `abort` request. -/
theorem abort_finished_calls (w : World ε) (req : Req) (st : St ε) :
    (abort w req st).2.trace.filter isFinished =
      st.trace.filter isFinished ++ [Event.interactionFinished req abortResult false] := by
  rw [abort_trace]
  cases (w.interactionFinished req abortResult false st.eng).1 <;> simp [isFinished]

/-- C7: when both engine calls of `getDetails` return, the details `d'` the handler shows
are the engine's details `d` with `params.prompt`, `prompt.name` set to `login` and
`prompt.reasons` set to `[]` if `d.params.prompt` is `select_account` (every other field
kept), and `d` itself otherwise; the handler renders view `login` with title `Sign-in`
when `d'.prompt.name` is `login`, and view `interaction` with title `Authorize` when it is
`consent`, passing `uid`, `params` and `prompt.details` of `d'` and the debug strings of
`d'.params` and `d'.prompt`. The call of `Client.find` comes after the assignments of
lines 102-104, so it is made on the engine state they leave. -/
theorem getDetails_select_account_rewrite (w : World ε) (req : Req) (st : St ε)
    (d d' : Details) (eng1 eng2 : ε) (c : Option Client)
    (h1 : w.interactionDetails req st.eng = (.ok d, eng1))
    (h2 : w.clientFind d.params.client_id
      (if d.params.prompt = some "select_account" then w.assigned req d' eng1 else eng1) =
        (.ok c, eng2))
    (hd : d' = rewriteSelectAccount d) :
    (d.params.prompt = some "select_account" →
      d' = { uid := d.uid,
             prompt := { name := "login", reasons := [], details := d.prompt.details },
             params := { client_id := d.params.client_id, prompt := some "login",
                         rest := d.params.rest },
             session := d.session, grantId := d.grantId }) ∧
    (d.params.prompt ≠ some "select_account" → d' = d) ∧
    (d'.prompt.name = "login" → ∃ locals tail,
      (getDetails w req st).2.trace = st.trace ++ [Event.interactionDetails req,
        Event.detailsLoaded d, Event.clientFind d.params.client_id,
        Event.render "login" locals] ++ tail ∧
      (∀ e ∈ tail, isRender e = false) ∧
      locals.title = "Sign-in" ∧ locals.client = c ∧ locals.uid = d'.uid ∧
      locals.details = d'.prompt.details ∧ locals.params = d'.params ∧
      (∃ k, locals.dbgParams = (w.debug (.params d'.params) k).1) ∧
      (∃ k, locals.dbgPrompt = (w.debug (.prompt d'.prompt) k).1)) ∧
    (d'.prompt.name ≠ "login" → d'.prompt.name = "consent" → ∃ locals tail,
      (getDetails w req st).2.trace = st.trace ++ [Event.interactionDetails req,
        Event.detailsLoaded d, Event.clientFind d.params.client_id,
        Event.render "interaction" locals] ++ tail ∧
      (∀ e ∈ tail, isRender e = false) ∧
      locals.title = "Authorize" ∧ locals.client = c ∧ locals.uid = d'.uid ∧
      locals.details = d'.prompt.details ∧ locals.params = d'.params ∧
      (∃ k, locals.dbgParams = (w.debug (.params d'.params) k).1) ∧
      (∃ k, locals.dbgPrompt = (w.debug (.prompt d'.prompt) k).1)) := by
  subst hd
  refine ⟨?_, ?_, ?_, ?_⟩
  · intro hp
    simp [rewriteSelectAccount, hp]
  · intro hp
    simp [rewriteSelectAccount, hp]
  · intro hn
    refine ⟨(localsOf w c (rewriteSelectAccount d) "Sign-in" st.keys).1,
      (match w.renderError "login" (localsOf w c (rewriteSelectAccount d) "Sign-in" st.keys).1 with
        | some e => [Event.next e]
        | none => []), ?_, ?_, rfl, rfl, rfl, rfl, rfl, ⟨_, rfl⟩, ⟨_, rfl⟩⟩
    · rw [getDetails_run w req st d eng1 c eng2 h1 h2, renderPrompt_run]
      simp [hn]
    · cases w.renderError "login" (localsOf w c (rewriteSelectAccount d) "Sign-in" st.keys).1 <;>
        simp [isRender]
  · intro hn hc
    refine ⟨(localsOf w c (rewriteSelectAccount d) "Authorize" st.keys).1,
      (match w.renderError "interaction"
          (localsOf w c (rewriteSelectAccount d) "Authorize" st.keys).1 with
        | some e => [Event.next e]
        | none => []), ?_, ?_, rfl, rfl, rfl, rfl, rfl, ⟨_, rfl⟩, ⟨_, rfl⟩⟩
    · rw [getDetails_run w req st d eng1 c eng2 h1 h2, renderPrompt_run]
      simp [hn, hc]
    · cases w.renderError "interaction"
        (localsOf w c (rewriteSelectAccount d) "Authorize" st.keys).1 <;> simp [isRender]

/-- C9: for an interaction requested with `prompt=select_account login` the handler of
`GET /interaction/:uid` returns after the two engine calls without a render and without
`next`; and when `provider.interactionDetails` throws, the handler is left by the
rejection, again without `next`. -/
theorem getDetails_ends_silently :
    (getDetails (fixedWorld atSelectAccountLogin (.ok ())) demoReq St.empty).2.trace =
      [Event.interactionDetails demoReq, Event.detailsLoaded atSelectAccountLogin,
        Event.clientFind "aaa-client"] ∧
    (∀ e ∈ (getDetails (fixedWorld atSelectAccountLogin (.ok ())) demoReq St.empty).2.trace,
      isRender e = false ∧ isNext e = false) ∧
    (getDetails (fixedWorld atSelectAccountLogin (.ok ())) demoReq St.empty).1 = .ok () ∧
    (getDetails guardedWorld demoReq (St.start ["u-1"] [] [])).1 =
      .error (Err.engine "SessionNotFound") ∧
    (getDetails guardedWorld demoReq (St.start ["u-1"] [] [])).2.trace =
      [Event.interactionDetails demoReq] := by
  refine ⟨by decide, by decide, rfl, rfl, by decide⟩

/-- C6, the claim refuted: with an engine that rejects the second finalize of a uid, two
`abort` requests for the same uid call `provider.interactionFinished` twice. -/
theorem abort_twice_finalizes_twice :
    (serve [abort guardedWorld demoReq, abort guardedWorld demoReq]
        (St.start [] [] [])).trace =
      [Event.interactionFinished demoReq abortResult false,
        Event.interactionFinished demoReq abortResult false,
        Event.next (Err.engine "SessionNotFound")] ∧
    ((serve [abort guardedWorld demoReq, abort guardedWorld demoReq]
        (St.start [] [] [])).trace.filter isFinished).length = 2 := by
  decide

/-- C6, amended: `abort` has no terminal-state check. Each `abort` request calls
`provider.interactionFinished` once, with the fixed result and
`mergeWithLastSubmission: false`, whatever state the engine is in; if the engine throws,
the error goes to `next`, and the handler returns normally either way. So a sequence of
`abort` requests makes one finalize call per request. -/
theorem abort_sequence_finalizes_every_time (w : World ε) (reqs : List Req) (st : St ε) :
    (serve (reqs.map (abort w)) st).trace.filter isFinished =
      st.trace.filter isFinished ++
        reqs.map (fun req => Event.interactionFinished req abortResult false) ∧
    (∀ (req : Req) (st1 : St ε),
      abort w req st1 =
        (.ok (),
          { st1 with
            eng := (w.interactionFinished req abortResult false st1.eng).2
            trace := st1.trace ++ Event.interactionFinished req abortResult false ::
              (match (w.interactionFinished req abortResult false st1.eng).1 with
                | .ok _ => []
                | .error e => [Event.next e]) })) := by
  constructor
  · induction reqs generalizing st with
    | nil => simp [serve]
    | cons r rs ih =>
      simp [serve, ih, abort_finished_calls]
  · intro req st1
    rcases hq : w.interactionFinished req abortResult false st1.eng with ⟨r, e1⟩
    cases r <;> simp [abort, hq]

/-- C5, the claim refuted: a scope string that holds a space is split by the merge step,
so the merged scopes are not the union with the delta; and a scope list that is present
and empty adds the empty string. -/
theorem merge_is_not_union_for_every_delta :
    (mergeMissing spacedDelta (some (freshGrant "g-1" "acc-1" "aaa-client")) St.empty).1 =
      .ok (some { jti := "g-1", accountId := "acc-1", clientId := "aaa-client",
                  oidcScopes := ["api", "read"], oidcClaims := [], resourceScopes := [] }) ∧
    "api read" ∈ deltaScopes spacedDelta ∧
    "api read" ∉ (applyMissing spacedDelta (freshGrant "g-1" "acc-1" "aaa-client")).oidcScopes ∧
    deltaScopes emptyListDelta = [] ∧
    (applyMissing emptyListDelta (freshGrant "g-1" "acc-1" "aaa-client")).oidcScopes = [""] := by
  refine ⟨rfl, by decide, by decide, rfl, by decide⟩

/-- C5, amended: for a grant `G` without duplicates and a delta `D` whose scope lists are
not empty and hold no string with a space, the merge step of the confirm handler leaves
the grant `applyMissing D G`, which has no duplicates and whose scopes, claims and
resource scopes are those of `G` together with those of `D`; applying `D` a second time
changes nothing, applying a `D` already contained in `G` changes nothing, and applying
`D` then `D2` gives the same sets as `D2` then `D`. -/
theorem confirm_merge_is_set_union (G : Grant) (D D2 : PromptDetails) (st : St ε)
    (hG : G.NoDup) (hD : cleanDelta D = true) (hD2 : cleanDelta D2 = true) :
    (mergeMissing D (some G) st).1 = .ok (some (applyMissing D G)) ∧
    (applyMissing D G).NoDup ∧
    (∀ s, s ∈ (applyMissing D G).oidcScopes ↔ s ∈ G.oidcScopes ∨ s ∈ deltaScopes D) ∧
    (∀ s, s ∈ (applyMissing D G).oidcClaims ↔ s ∈ G.oidcClaims ∨ s ∈ deltaClaims D) ∧
    (∀ i s, s ∈ scopesOf (applyMissing D G).resourceScopes i ↔
      s ∈ scopesOf G.resourceScopes i ∨ s ∈ deltaResource D i) ∧
    applyMissing D (applyMissing D G) = applyMissing D G ∧
    (SubDelta D G → applyMissing D G = G) ∧
    SameSets (applyMissing D2 (applyMissing D G)) (applyMissing D (applyMissing D2 G)) := by
  refine ⟨by rw [mergeMissing_defined], applyMissing_noDup D G hG,
    mem_applyMissing_oidcScopes D hD G, mem_applyMissing_oidcClaims D G,
    mem_applyMissing_resourceScopes D hD G,
    applyMissing_eq_self D hD _ (subDelta_applyMissing D hD G),
    applyMissing_eq_self D hD G, ?_, ?_, ?_⟩
  · intro s
    simp only [mem_applyMissing_oidcScopes _ hD, mem_applyMissing_oidcScopes _ hD2]
    tauto
  · intro s
    simp only [mem_applyMissing_oidcClaims]
    tauto
  · intro i s
    simp only [mem_applyMissing_resourceScopes _ hD, mem_applyMissing_resourceScopes _ hD2]
    tauto

/-- C5, witness: a stored grant, a delta that overlaps it, and a second delta. -/
theorem confirm_merge_is_set_union_witness :
    demoGrant.NoDup ∧ cleanDelta demoDelta = true ∧ cleanDelta otherDelta = true ∧
    ((mergeMissing demoDelta (some demoGrant) St.empty).1 =
        .ok (some (applyMissing demoDelta demoGrant)) ∧
      (applyMissing demoDelta demoGrant).NoDup ∧
      (∀ s, s ∈ (applyMissing demoDelta demoGrant).oidcScopes ↔
        s ∈ demoGrant.oidcScopes ∨ s ∈ deltaScopes demoDelta) ∧
      (∀ s, s ∈ (applyMissing demoDelta demoGrant).oidcClaims ↔
        s ∈ demoGrant.oidcClaims ∨ s ∈ deltaClaims demoDelta) ∧
      (∀ i s, s ∈ scopesOf (applyMissing demoDelta demoGrant).resourceScopes i ↔
        s ∈ scopesOf demoGrant.resourceScopes i ∨ s ∈ deltaResource demoDelta i) ∧
      applyMissing demoDelta (applyMissing demoDelta demoGrant) =
        applyMissing demoDelta demoGrant ∧
      (SubDelta demoDelta demoGrant → applyMissing demoDelta demoGrant = demoGrant) ∧
      SameSets (applyMissing otherDelta (applyMissing demoDelta demoGrant))
        (applyMissing demoDelta (applyMissing otherDelta demoGrant))) :=
  ⟨by decide, by decide, by decide,
    confirm_merge_is_set_union demoGrant demoDelta otherDelta St.empty
      (by decide) (by decide) (by decide)⟩

/-- C2, witness: the login `alice` at the login prompt; the account store answers `acc-1`. -/
theorem submitLogin_finalizes_iff_login_and_account_witness :
    (fixedWorld atLogin (.ok ())).interactionDetails demoReq St.empty.eng = (.ok atLogin, ()) ∧
    ∃ new, (submitLogin (fixedWorld atLogin (.ok ())) demoReq St.empty).2.trace =
        St.empty.trace ++ new ∧
      ((∃ e ∈ new, isFinished e = true) ↔
        (atLogin.prompt.name = "login" ∧
          ∃ a eng2, (fixedWorld atLogin (.ok ())).findByLogin demoReq.login () =
            (.ok (some a), eng2))) ∧
      (∀ a eng2, atLogin.prompt.name = "login" →
        (fixedWorld atLogin (.ok ())).findByLogin demoReq.login () = (.ok (some a), eng2) →
        new.filter isFinished =
          [Event.interactionFinished demoReq (Result.login a.accountId) false]) ∧
      (atLogin.prompt.name ≠ "login" →
        new = [Event.interactionDetails demoReq, Event.detailsLoaded atLogin,
               Event.next (Err.assertion atLogin.prompt.name "login")] ∧
        (submitLogin (fixedWorld atLogin (.ok ())) demoReq St.empty).2.eng = () ∧
        (submitLogin (fixedWorld atLogin (.ok ())) demoReq St.empty).2.grants =
          St.empty.grants) :=
  ⟨rfl, submitLogin_finalizes_iff_login_and_account (fixedWorld atLogin (.ok ())) demoReq
    St.empty atLogin () rfl⟩

/-- The steps of a first consent whose `save` succeeds. -/
theorem submitConsent_new_grant_steps (w : World ε) (req : Req) (eng : ε) (grants : GrantStore)
    (keys : List String) (d : Details) (eng1 : ε)
    (h : w.interactionDetails req eng = (.ok d, eng1)) (s : Session)
    (hs : d.session = some s) (hn : d.prompt.name = "consent")
    (hg : d.grantId = none ∨ d.grantId = some "")
    (hsave : w.grantSaveError (applyMissing d.prompt.details
      (freshGrant (w.genGrantId eng1).1 s.accountId d.params.client_id))
      (w.genGrantId eng1).2 = none) :
    (submitConsent w req (St.start eng grants keys)).2.trace =
      [Event.interactionDetails req, Event.detailsLoaded d,
        Event.grantNew s.accountId d.params.client_id] ++ mergeSteps d.prompt.details ++
      [Event.grantSave (applyMissing d.prompt.details
          (freshGrant (w.genGrantId eng1).1 s.accountId d.params.client_id)),
        Event.grantSaved (w.genGrantId eng1).1,
        Event.interactionFinished req (Result.consent ⟨some (w.genGrantId eng1).1⟩) true] ++
      (match (w.interactionFinished req (Result.consent ⟨some (w.genGrantId eng1).1⟩) true
          (w.genGrantId eng1).2).1 with
        | .ok _ => []
        | .error e => [Event.next e]) := by
  obtain ⟨uid, ⟨name, reasons, D⟩, params, session, grantId⟩ := d
  simp only at hs hn hg hsave
  subst hs hn
  have ht : truthyStr grantId = false := by
    rcases hg with rfl | rfl <;> simp [truthyStr]
  rcases hq : w.interactionFinished req (Result.consent ⟨some (w.genGrantId eng1).1⟩)
    true (w.genGrantId eng1).2 with ⟨r1, e3⟩
  cases r1 <;>
    simp [submitConsent, submitConsentBody, St.start, h, ht, callGrantNew_run,
      callGrantSave_ok, mergeMissing_defined, hsave, hq, applyMissing_jti, freshGrant_jti]

/-- The steps of a consent on a grant the session already has, when `Grant.find` finds it
and `save` succeeds. -/
theorem submitConsent_existing_grant_steps (w : World ε) (req : Req) (eng : ε)
    (grants : GrantStore) (keys : List String) (d : Details) (eng1 : ε)
    (h : w.interactionDetails req eng = (.ok d, eng1)) (s : Session) (id : String)
    (g0 : Grant) (hs : d.session = some s) (hn : d.prompt.name = "consent")
    (hg : d.grantId = some id) (hid : id ≠ "") (hfind : w.grantFindError id eng1 = none)
    (hl : grants.lookup id = some g0)
    (hsave : w.grantSaveError (applyMissing d.prompt.details g0) eng1 = none) :
    (submitConsent w req (St.start eng grants keys)).2.trace =
      [Event.interactionDetails req, Event.detailsLoaded d, Event.grantFind id] ++
      mergeSteps d.prompt.details ++
      [Event.grantSave (applyMissing d.prompt.details g0), Event.grantSaved g0.jti,
        Event.interactionFinished req (Result.consent ⟨none⟩) true] ++
      (match (w.interactionFinished req (Result.consent ⟨none⟩) true eng1).1 with
        | .ok _ => []
        | .error e => [Event.next e]) := by
  obtain ⟨uid, ⟨name, reasons, D⟩, params, session, grantId⟩ := d
  simp only at hs hn hg hsave
  subst hs hn hg
  have ht : truthyStr (some id) = true := by simp [truthyStr, hid]
  rcases hq : w.interactionFinished req (Result.consent ⟨none⟩) true eng1 with ⟨r1, e3⟩
  cases r1 <;>
    simp [submitConsent, submitConsentBody, St.start, h, ht, callGrantFind_ok, hfind, hl,
      callGrantSave_ok, mergeMissing_defined, hsave, hq, applyMissing_jti]

/-- C4: when the engine returns details `d`, every finalize call of the confirm handler
has `mergeWithLastSubmission: true` and result `{consent: c}`, where `c.grantId` is
present if and only if `d` carries no `grantId` (absent, or the falsy empty string). If `d`
carries none and `save` succeeds, the handler constructs a grant for
`(session.accountId, params.client_id)`, adds the missing items, saves it and hands over
`{consent: {grantId}}` with the identifier `save` returned. If `d` carries a `grantId` that
`Grant.find` finds and `save` succeeds, the handler adds the missing items to the grant
found, saves it and hands over `{consent: {}}`. Either way the handoff is reached, once, and
an error of it goes to `next`. -/
theorem submitConsent_result_shape (w : World ε) (req : Req) (eng : ε) (grants : GrantStore)
    (keys : List String) (d : Details) (eng1 : ε)
    (h : w.interactionDetails req eng = (.ok d, eng1)) :
    (∀ q r m, Event.interactionFinished q r m ∈
        (submitConsent w req (St.start eng grants keys)).2.trace →
      m = true ∧ q = req ∧ ∃ (s : Session) (g0 : Grant),
        d.session = some s ∧
        Event.grantSave (applyMissing d.prompt.details g0) ∈
          (submitConsent w req (St.start eng grants keys)).2.trace ∧
        Event.grantSaved g0.jti ∈ (submitConsent w req (St.start eng grants keys)).2.trace ∧
        (d.grantId = none ∨ d.grantId = some "" →
          Event.grantNew s.accountId d.params.client_id ∈
            (submitConsent w req (St.start eng grants keys)).2.trace ∧
          g0 = freshGrant (w.genGrantId eng1).1 s.accountId d.params.client_id ∧
          r = Result.consent ⟨some g0.jti⟩) ∧
        (∀ id, d.grantId = some id → id ≠ "" →
          Event.grantFind id ∈ (submitConsent w req (St.start eng grants keys)).2.trace ∧
          grants.lookup id = some g0 ∧ r = Result.consent ⟨none⟩) ∧
        ((∃ id, r = Result.consent ⟨some id⟩) ↔
          (d.grantId = none ∨ d.grantId = some ""))) ∧
    (∀ s, d.session = some s → d.prompt.name = "consent" →
      (d.grantId = none ∨ d.grantId = some "") →
      w.grantSaveError (applyMissing d.prompt.details
        (freshGrant (w.genGrantId eng1).1 s.accountId d.params.client_id))
        (w.genGrantId eng1).2 = none →
      (submitConsent w req (St.start eng grants keys)).2.trace =
        [Event.interactionDetails req, Event.detailsLoaded d,
          Event.grantNew s.accountId d.params.client_id] ++ mergeSteps d.prompt.details ++
        [Event.grantSave (applyMissing d.prompt.details
            (freshGrant (w.genGrantId eng1).1 s.accountId d.params.client_id)),
          Event.grantSaved (w.genGrantId eng1).1,
          Event.interactionFinished req (Result.consent ⟨some (w.genGrantId eng1).1⟩) true] ++
        (match (w.interactionFinished req (Result.consent ⟨some (w.genGrantId eng1).1⟩) true
            (w.genGrantId eng1).2).1 with
          | .ok _ => []
          | .error e => [Event.next e])) ∧
    (∀ s id g0, d.session = some s → d.prompt.name = "consent" → d.grantId = some id →
      id ≠ "" → w.grantFindError id eng1 = none → grants.lookup id = some g0 →
      w.grantSaveError (applyMissing d.prompt.details g0) eng1 = none →
      (submitConsent w req (St.start eng grants keys)).2.trace =
        [Event.interactionDetails req, Event.detailsLoaded d, Event.grantFind id] ++
        mergeSteps d.prompt.details ++
        [Event.grantSave (applyMissing d.prompt.details g0), Event.grantSaved g0.jti,
          Event.interactionFinished req (Result.consent ⟨none⟩) true] ++
        (match (w.interactionFinished req (Result.consent ⟨none⟩) true eng1).1 with
          | .ok _ => []
          | .error e => [Event.next e])) :=
  ⟨fun q r m hf => submitConsent_handoff_shape w req eng grants keys d eng1 h q r m hf,
    fun s hs hn hg hsave =>
      submitConsent_new_grant_steps w req eng grants keys d eng1 h s hs hn hg hsave,
    fun s id g0 hs hn hg hid hfind hl hsave =>
      submitConsent_existing_grant_steps w req eng grants keys d eng1 h s id g0 hs hn hg hid
        hfind hl hsave⟩

/-- C4, witness: a first consent of account `acc-1` (the new grant `g-1` is saved and its
identifier handed over), and a consent of the same account on its stored grant `g-0` (the
grant found is extended by `email`, saved, and the result is `{consent: {}}`). -/
theorem submitConsent_result_shape_witness :
    (fixedWorld atConsent (.ok ())).interactionDetails demoReq () = (.ok atConsent, ()) ∧
    (submitConsent (fixedWorld atConsent (.ok ())) demoReq (St.start () [] [])).2.trace =
      [Event.interactionDetails demoReq, Event.detailsLoaded atConsent,
        Event.grantNew "acc-1" "aaa-client", Event.addOIDCScope "openid email",
        Event.grantSave { jti := "g-1", accountId := "acc-1", clientId := "aaa-client",
                          oidcScopes := ["openid", "email"], oidcClaims := [],
                          resourceScopes := [] },
        Event.grantSaved "g-1",
        Event.interactionFinished demoReq (Result.consent ⟨some "g-1"⟩) true] ∧
    (fixedWorld atConsentAgain (.ok ())).interactionDetails demoReq () =
      (.ok atConsentAgain, ()) ∧
    List.lookup "g-0" [("g-0", demoGrant)] = some demoGrant ∧
    (submitConsent (fixedWorld atConsentAgain (.ok ())) demoReq
        (St.start () [("g-0", demoGrant)] [])).2.trace =
      [Event.interactionDetails demoReq, Event.detailsLoaded atConsentAgain,
        Event.grantFind "g-0", Event.addOIDCScope "email",
        Event.grantSave { jti := "g-0", accountId := "acc-1", clientId := "aaa-client",
                          oidcScopes := ["email", "openid"], oidcClaims := [],
                          resourceScopes := [("urn:api", ["read"])] },
        Event.grantSaved "g-0",
        Event.interactionFinished demoReq (Result.consent ⟨none⟩) true] ∧
    (submitConsent (fixedWorld atConsentAgain (.ok ())) demoReq
        (St.start () [("g-0", demoGrant)] [])).2.grants =
      [("g-0", { jti := "g-0", accountId := "acc-1", clientId := "aaa-client",
                 oidcScopes := ["email", "openid"], oidcClaims := [],
                 resourceScopes := [("urn:api", ["read"])] })] ∧
    (true = true ∧ demoReq = demoReq ∧ ∃ (s : Session) (g0 : Grant),
      atConsentAgain.session = some s ∧
      Event.grantSave (applyMissing atConsentAgain.prompt.details g0) ∈
        (submitConsent (fixedWorld atConsentAgain (.ok ())) demoReq
          (St.start () [("g-0", demoGrant)] [])).2.trace ∧
      Event.grantSaved g0.jti ∈
        (submitConsent (fixedWorld atConsentAgain (.ok ())) demoReq
          (St.start () [("g-0", demoGrant)] [])).2.trace ∧
      (atConsentAgain.grantId = none ∨ atConsentAgain.grantId = some "" →
        Event.grantNew s.accountId atConsentAgain.params.client_id ∈
          (submitConsent (fixedWorld atConsentAgain (.ok ())) demoReq
            (St.start () [("g-0", demoGrant)] [])).2.trace ∧
        g0 = freshGrant ((fixedWorld atConsentAgain (.ok ())).genGrantId ()).1 s.accountId
          atConsentAgain.params.client_id ∧
        Result.consent ⟨none⟩ = Result.consent ⟨some g0.jti⟩) ∧
      (∀ id, atConsentAgain.grantId = some id → id ≠ "" →
        Event.grantFind id ∈
          (submitConsent (fixedWorld atConsentAgain (.ok ())) demoReq
            (St.start () [("g-0", demoGrant)] [])).2.trace ∧
        List.lookup id [("g-0", demoGrant)] = some g0 ∧
        Result.consent ⟨none⟩ = Result.consent ⟨none⟩) ∧
      ((∃ id, Result.consent ⟨none⟩ = Result.consent ⟨some id⟩) ↔
        (atConsentAgain.grantId = none ∨ atConsentAgain.grantId = some ""))) :=
  ⟨rfl,
    (submitConsent_result_shape (fixedWorld atConsent (.ok ())) demoReq () [] [] atConsent ()
      rfl).2.1 ⟨"acc-1"⟩ rfl rfl (Or.inl rfl) rfl,
    rfl, rfl,
    (submitConsent_result_shape (fixedWorld atConsentAgain (.ok ())) demoReq ()
      [("g-0", demoGrant)] [] atConsentAgain () rfl).2.2 ⟨"acc-1"⟩ "g-0" demoGrant rfl rfl rfl
      (by decide) rfl rfl rfl,
    by decide,
    (submitConsent_result_shape (fixedWorld atConsentAgain (.ok ())) demoReq ()
      [("g-0", demoGrant)] [] atConsentAgain () rfl).1 demoReq (Result.consent ⟨none⟩) true
      (by decide)⟩

/-- C10, witness: a confirm request at the login prompt fails before the handoff and
leaves the empty store empty. -/
theorem submitConsent_store_only_changed_by_successful_save_witness :
    (∀ q r m, Event.interactionFinished q r m ∉
        (submitConsent (fixedWorld atLogin (.ok ())) demoReq (St.start () [] [])).2.trace) ∧
    (∃ err, Event.next err ∈
        (submitConsent (fixedWorld atLogin (.ok ())) demoReq (St.start () [] [])).2.trace) ∧
    (submitConsent (fixedWorld atLogin (.ok ())) demoReq (St.start () [] [])).2.grants = [] :=
  have hno : ∀ q r m, Event.interactionFinished q r m ∉
      (submitConsent (fixedWorld atLogin (.ok ())) demoReq (St.start () [] [])).2.trace := by
    intro q r m hmem
    have ht : (submitConsent (fixedWorld atLogin (.ok ())) demoReq (St.start () [] [])).2.trace =
        [Event.interactionDetails demoReq, Event.detailsLoaded atLogin,
          Event.next (Err.typeError "Cannot destructure property accountId of undefined")] := by
      decide
    rw [ht] at hmem
    simp at hmem
  ⟨hno, (submitConsent_store_only_changed_by_successful_save (fixedWorld atLogin (.ok ()))
    demoReq () [] []).1 hno⟩

/-- C7, witness: an interaction requested with `prompt=select_account` is shown as the
`login` view. -/
theorem getDetails_select_account_rewrite_witness :
    (fixedWorld atSelectAccount (.ok ())).interactionDetails demoReq St.empty.eng =
      (.ok atSelectAccount, ()) ∧
    (fixedWorld atSelectAccount (.ok ())).clientFind atSelectAccount.params.client_id () =
      (.ok (some demoClient), ()) ∧
    atSelectAccount.params.prompt = some "select_account" ∧
    rewriteSelectAccount atSelectAccount =
      { uid := "u-1", prompt := { name := "login", reasons := [], details := noDetails },
        params := { client_id := "aaa-client", prompt := some "login",
                    rest := [("scope", "openid")] },
        session := none, grantId := none } ∧
    ∃ locals tail,
      (getDetails (fixedWorld atSelectAccount (.ok ())) demoReq St.empty).2.trace =
        St.empty.trace ++ [Event.interactionDetails demoReq,
          Event.detailsLoaded atSelectAccount,
          Event.clientFind atSelectAccount.params.client_id,
          Event.render "login" locals] ++ tail ∧
      (∀ e ∈ tail, isRender e = false) ∧
      locals.title = "Sign-in" ∧ locals.client = some demoClient ∧
      locals.uid = (rewriteSelectAccount atSelectAccount).uid ∧
      locals.details = (rewriteSelectAccount atSelectAccount).prompt.details ∧
      locals.params = (rewriteSelectAccount atSelectAccount).params ∧
      (∃ k, locals.dbgParams = ((fixedWorld atSelectAccount (.ok ())).debug
        (.params (rewriteSelectAccount atSelectAccount).params) k).1) ∧
      (∃ k, locals.dbgPrompt = ((fixedWorld atSelectAccount (.ok ())).debug
        (.prompt (rewriteSelectAccount atSelectAccount).prompt) k).1) :=
  ⟨rfl, rfl, rfl,
    (getDetails_select_account_rewrite (fixedWorld atSelectAccount (.ok ())) demoReq St.empty
      atSelectAccount (rewriteSelectAccount atSelectAccount) () () (some demoClient)
      rfl rfl rfl).1 rfl,
    (getDetails_select_account_rewrite (fixedWorld atSelectAccount (.ok ())) demoReq St.empty
      atSelectAccount (rewriteSelectAccount atSelectAccount) () () (some demoClient)
      rfl rfl rfl).2.2.1 rfl⟩

theorem lookup_storeRecord (store : List (String × Details)) (uid : String) (d d' : Details)
    (h : store.lookup uid = some d) : (storeRecord store uid d').lookup uid = some d' := by
  induction store with
  | nil => simp at h
  | cons e store ih =>
    obtain ⟨k, v⟩ := e
    by_cases hk : k = uid
    · subst hk
      simp [storeRecord]
    · have hb : (uid == k) = false := by
        simpa using fun hc : uid = k => hk hc.symm
      simp only [List.lookup_cons, hb] at h
      simp only [storeRecord, List.map_cons, hk, if_false, List.lookup_cons, hb]
      exact ih h

theorem localsOf_memoryWorld (client c : Option Client) (d : Details) (title : String)
    (keys : List String) :
    localsOf (memoryWorld client) c d title keys =
      ({ client := c, uid := d.uid, details := d.prompt.details, params := d.params,
         title := title, session := d.session.map (fun _ => ""),
         dbgParams := "", dbgPrompt := "" }, keys) := by
  cases hs : d.session <;> simp [localsOf, memoryWorld, hs]

/-- A read of a stored record that is shown as `login` and is not a `select_account`
request: nothing is written, the `login` view is rendered. -/
theorem getDetails_memory_login (client : Option Client) (req : Req)
    (st : St (List (String × Details))) (d : Details)
    (hst : st.eng.lookup req.uid = some d) (hp : d.params.prompt ≠ some "select_account")
    (hn : d.prompt.name = "login") :
    (getDetails (memoryWorld client) req st).2 =
      { st with trace := st.trace ++ [Event.interactionDetails req, Event.detailsLoaded d,
          Event.clientFind d.params.client_id,
          Event.render "login"
            { client := client, uid := d.uid, details := d.prompt.details,
              params := d.params, title := "Sign-in",
              session := d.session.map (fun _ => ""), dbgParams := "", dbgPrompt := "" }] } := by
  have hr : rewriteSelectAccount d = d := by simp [rewriteSelectAccount, hp]
  rw [getDetails_run (memoryWorld client) req st d st.eng client st.eng
    (by simp [memoryWorld, hst]) (by simp [memoryWorld, hp]), renderPrompt_run, hr]
  simp only [localsOf_memoryWorld]
  simp [hn, hp, memoryWorld]

/-- A read of a stored `select_account` record: the record is rewritten in the store, the
write is recorded, the `login` view is rendered. -/
theorem getDetails_memory_select_account (client : Option Client) (req : Req)
    (st : St (List (String × Details))) (d : Details)
    (hst : st.eng.lookup req.uid = some d) (hp : d.params.prompt = some "select_account") :
    (getDetails (memoryWorld client) req st).2 =
      { st with
        eng := storeRecord st.eng req.uid (rewriteSelectAccount d)
        trace := st.trace ++ [Event.interactionDetails req, Event.detailsLoaded d,
          Event.clientFind d.params.client_id,
          Event.render "login"
            { client := client, uid := d.uid, details := d.prompt.details,
              params := ⟨d.params.client_id, some "login", d.params.rest⟩,
              title := "Sign-in", session := d.session.map (fun _ => ""),
              dbgParams := "", dbgPrompt := "" }]
        writes := st.writes ++ [rewriteSelectAccount d] } := by
  have hr : rewriteSelectAccount d =
      { d with params := { d.params with prompt := some "login" }
               prompt := { d.prompt with name := "login", reasons := [] } } := by
    simp [rewriteSelectAccount, hp]
  rw [getDetails_run (memoryWorld client) req st d st.eng client
    (storeRecord st.eng req.uid (rewriteSelectAccount d))
    (by simp [memoryWorld, hst]) (by simp [memoryWorld, hp]), renderPrompt_run]
  simp only [localsOf_memoryWorld]
  simp [hp, memoryWorld, hr]

theorem serve_memory_login (client : Option Client) (req : Req) (d : Details)
    (hp : d.params.prompt ≠ some "select_account") (hn : d.prompt.name = "login") (n : Nat)
    (st : St (List (String × Details))) (hst : st.eng.lookup req.uid = some d) :
    serve (List.replicate n (getDetails (memoryWorld client) req)) st =
      { st with trace := st.trace ++ (List.replicate n
          [Event.interactionDetails req, Event.detailsLoaded d,
            Event.clientFind d.params.client_id,
            Event.render "login"
              { client := client, uid := d.uid, details := d.prompt.details,
                params := d.params, title := "Sign-in",
                session := d.session.map (fun _ => ""), dbgParams := "",
                dbgPrompt := "" }]).flatten } := by
  induction n generalizing st with
  | zero => simp [serve]
  | succ k ih =>
    rw [List.replicate_succ, serve, getDetails_memory_login client req st d hst hp hn,
      ih _ (by simpa using hst)]
    simp [List.replicate_succ]

/-- C8: with the engine keeping its interactions in memory, as configured, any number of
reads of an interaction stored with `params.prompt = 'select_account'` makes the
assignments of lines 102-104 once, in the first read; the first read finds the stored
record as created and every later read finds it with prompt name `login`, reasons `[]` and
`params.prompt = 'login'`, so the condition of line 101 is false for it; every read renders
the `login` view with `params.prompt = 'login'`. -/
theorem getDetails_rewrites_once (client : Option Client) (store : List (String × Details))
    (grants : GrantStore) (keys : List String) (req : Req) (d0 : Details) (n : Nat)
    (hst : store.lookup req.uid = some d0)
    (hp : d0.params.prompt = some "select_account") :
    (serve (List.replicate (n + 1) (getDetails (memoryWorld client) req))
        (St.start store grants keys)).writes = [rewriteSelectAccount d0] ∧
    (serve (List.replicate (n + 1) (getDetails (memoryWorld client) req))
        (St.start store grants keys)).trace =
      [Event.interactionDetails req, Event.detailsLoaded d0,
        Event.clientFind d0.params.client_id,
        Event.render "login"
          { client := client, uid := d0.uid, details := d0.prompt.details,
            params := ⟨d0.params.client_id, some "login", d0.params.rest⟩,
            title := "Sign-in", session := d0.session.map (fun _ => ""),
            dbgParams := "", dbgPrompt := "" }] ++
      (List.replicate n
        [Event.interactionDetails req,
          Event.detailsLoaded
            { uid := d0.uid, prompt := ⟨"login", [], d0.prompt.details⟩,
              params := ⟨d0.params.client_id, some "login", d0.params.rest⟩,
              session := d0.session, grantId := d0.grantId },
          Event.clientFind d0.params.client_id,
          Event.render "login"
            { client := client, uid := d0.uid, details := d0.prompt.details,
              params := ⟨d0.params.client_id, some "login", d0.params.rest⟩,
              title := "Sign-in", session := d0.session.map (fun _ => ""),
              dbgParams := "", dbgPrompt := "" }]).flatten ∧
    (serve (List.replicate (n + 1) (getDetails (memoryWorld client) req))
        (St.start store grants keys)).eng.lookup req.uid =
      some { uid := d0.uid, prompt := ⟨"login", [], d0.prompt.details⟩,
             params := ⟨d0.params.client_id, some "login", d0.params.rest⟩,
             session := d0.session, grantId := d0.grantId } := by
  have hr : rewriteSelectAccount d0 =
      { uid := d0.uid, prompt := ⟨"login", [], d0.prompt.details⟩,
        params := ⟨d0.params.client_id, some "login", d0.params.rest⟩,
        session := d0.session, grantId := d0.grantId } := by
    simp [rewriteSelectAccount, hp]
  have h1 := getDetails_memory_select_account client req (St.start store grants keys) d0
    hst hp
  have hl := lookup_storeRecord store req.uid d0 (rewriteSelectAccount d0) hst
  rw [List.replicate_succ, serve, h1,
    serve_memory_login client req (rewriteSelectAccount d0) (by simp [hr]) (by simp [hr]) n _
      (by simpa [St.start] using hl)]
  refine ⟨by simp [St.start], ?_, ?_⟩
  · simp [St.start, hr]
  · simpa [St.start, hr] using hl

/-- C8, witness: three reads of the interaction `u-1`, stored with
`params.prompt = 'select_account'`: one write, in the first read. -/
theorem getDetails_rewrites_once_witness :
    List.lookup demoReq.uid [("u-1", atSelectAccount)] = some atSelectAccount ∧
    atSelectAccount.params.prompt = some "select_account" ∧
    (serve (List.replicate (2 + 1) (getDetails (memoryWorld (some demoClient)) demoReq))
        (St.start [("u-1", atSelectAccount)] [] [])).writes =
      [rewriteSelectAccount atSelectAccount] ∧
    (serve (List.replicate (2 + 1) (getDetails (memoryWorld (some demoClient)) demoReq))
        (St.start [("u-1", atSelectAccount)] [] [])).trace =
      [Event.interactionDetails demoReq, Event.detailsLoaded atSelectAccount,
        Event.clientFind "aaa-client",
        Event.render "login"
          { client := some demoClient, uid := "u-1", details := noDetails,
            params := ⟨"aaa-client", some "login", [("scope", "openid")]⟩,
            title := "Sign-in", session := none, dbgParams := "", dbgPrompt := "" },
        Event.interactionDetails demoReq,
        Event.detailsLoaded
          { uid := "u-1", prompt := ⟨"login", [], noDetails⟩,
            params := ⟨"aaa-client", some "login", [("scope", "openid")]⟩,
            session := none, grantId := none },
        Event.clientFind "aaa-client",
        Event.render "login"
          { client := some demoClient, uid := "u-1", details := noDetails,
            params := ⟨"aaa-client", some "login", [("scope", "openid")]⟩,
            title := "Sign-in", session := none, dbgParams := "", dbgPrompt := "" },
        Event.interactionDetails demoReq,
        Event.detailsLoaded
          { uid := "u-1", prompt := ⟨"login", [], noDetails⟩,
            params := ⟨"aaa-client", some "login", [("scope", "openid")]⟩,
            session := none, grantId := none },
        Event.clientFind "aaa-client",
        Event.render "login"
          { client := some demoClient, uid := "u-1", details := noDetails,
            params := ⟨"aaa-client", some "login", [("scope", "openid")]⟩,
            title := "Sign-in", session := none, dbgParams := "", dbgPrompt := "" }] ∧
    (serve (List.replicate (2 + 1) (getDetails (memoryWorld (some demoClient)) demoReq))
        (St.start [("u-1", atSelectAccount)] [] [])).eng.lookup demoReq.uid =
      some { uid := "u-1", prompt := ⟨"login", [], noDetails⟩,
             params := ⟨"aaa-client", some "login", [("scope", "openid")]⟩,
             session := none, grantId := none } :=
  ⟨rfl, rfl,
    getDetails_rewrites_once (some demoClient) [("u-1", atSelectAccount)] [] [] demoReq
      atSelectAccount 2 rfl rfl⟩

end Claims

end OidcDemo
